import Mathlib

/-!
Verification development for the `bip48-multisig` library (`src/index.ts`).

The TypeScript source derives BIP-48 P2WSH multisig addresses and output
descriptors from cosigner extended public keys.  The library-level
primitives it consumes (`bs58check`, `bip32`, `bitcoinjs-lib` payments,
`tiny-secp256k1`) are embedded here as executable Lean functions following
their standard specifications (SHA-256/512, HMAC-SHA-512, base58check,
secp256k1 point arithmetic, BIP-32 public child derivation, bech32
address encoding), so that the repository's own functions
(`normalizeToNeutralPub`, `buildBip48P2wshAddress`, `deriveBip48Addresses`)
can be stated and evaluated on concrete inputs.

Bytes are modelled as `List Nat` with entries below 256; extended keys are
`String`s, as in the source.  Fallible code returns `Except Err` /
`Option`.  Machine arithmetic is `Nat` with explicit masking.
-/

/-! ### Byte and digit helpers -/

/-- Big-endian value of a byte list (`Buffer.readUInt32BE` generalised). -/
def natOfBE (l : List Nat) : Nat := l.foldl (fun a b => a * 256 + b) 0

/-- Fixed-width big-endian bytes of `n` (width `w`). -/
def toBytesBE : Nat → Nat → List Nat
  | 0, _ => []
  | w + 1, n => toBytesBE w (n / 256) ++ [n % 256]

/-- Base-`b` digits of `n`, most significant first, no leading zero, `[]` for 0.
`f` is fuel; `toDigitsMin` supplies `n` itself, which bounds the digit count. -/
def digitsAux (b : Nat) : Nat → Nat → List Nat
  | 0, _ => []
  | f + 1, n => if n = 0 then [] else digitsAux b f (n / b) ++ [n % b]

/-- Minimal base-`b` representation of `n`, most significant digit first. -/
def toDigitsMin (b n : Nat) : List Nat := digitsAux b n n

/-- Value of a base-`b` digit list, most significant first. -/
def natOfDigits (b : Nat) (l : List Nat) : Nat := l.foldl (fun a d => a * b + d) 0

/-- Lower-case hex digit. -/
def hexChar (n : Nat) : Char :=
  if n < 10 then Char.ofNat (48 + n) else if n < 16 then Char.ofNat (87 + n) else '?'

/-- Hex string of a byte list (`Buffer.toString('hex')`). -/
def bytesToHex (l : List Nat) : String :=
  String.mk (l.flatMap fun b => [hexChar (b / 16), hexChar (b % 16)])

/-- Decimal rendering of a `Nat` (JS template-literal `${n}` for integers). -/
def natToDec (n : Nat) : String :=
  if n = 0 then "0" else String.mk ((toDigitsMin 10 n).map fun d => Char.ofNat (48 + d))

/-- Decimal rendering of an `Int` (JS `${m}`). -/
def intToDec (m : Int) : String :=
  if m < 0 then "-" ++ natToDec m.natAbs else natToDec m.toNat

/-- Split a list into chunks of `sz` bytes (fuel = list length). -/
def chunksAux (sz : Nat) : Nat → List Nat → List (List Nat)
  | 0, _ => []
  | f + 1, l => if l.isEmpty then [] else l.take sz :: chunksAux sz f (l.drop sz)

def chunks (sz : Nat) (l : List Nat) : List (List Nat) := chunksAux sz l.length l

/-! ### SHA-2 (shared core for SHA-256 and SHA-512)

Standard FIPS 180-4 algorithm over `Nat` words masked to the word size. -/

structure ShaParams where
  wordBytes : Nat                 -- 4 for SHA-256, 8 for SHA-512
  wbits : Nat                     -- 32 resp. 64
  mask : Nat                      -- 2 ^ wbits - 1, stored as a literal
  blockBytes : Nat                -- 64 resp. 128
  rounds : Nat                    -- 64 resp. 80
  lenBytes : Nat                  -- length field: 8 resp. 16 bytes
  k : List Nat
  h0 : List Nat
  bigS0 : Nat × Nat × Nat         -- Σ0 rotation amounts
  bigS1 : Nat × Nat × Nat         -- Σ1 rotation amounts
  smallS0 : Nat × Nat × Nat       -- σ0: two rotations and a shift
  smallS1 : Nat × Nat × Nat       -- σ1

def rotr (w mask n x : Nat) : Nat := ((x >>> n) ||| (x <<< (w - n))) &&& mask

def shaSigma (w mask : Nat) (c : Nat × Nat × Nat) (isSmall : Bool) (x : Nat) : Nat :=
  let a := rotr w mask c.1 x
  let b := rotr w mask c.2.1 x
  let d := if isSmall then x >>> c.2.2 else rotr w mask c.2.2 x
  a ^^^ b ^^^ d

/-- Message-schedule extension: run until `rounds` words exist.  The window
carries the most recent 16 words, oldest first; `acc` accumulates all words
in order. -/
def shaExtendAux (p : ShaParams) : Nat → List Nat → List Nat → List Nat
  | 0, _, acc => acc
  | f + 1, window, acc =>
    let s0 := shaSigma p.wbits p.mask p.smallS0 true (window.getD 1 0)
    let s1 := shaSigma p.wbits p.mask p.smallS1 true (window.getD 14 0)
    let nw := (window.getD 0 0 + s0 + window.getD 9 0 + s1) &&& p.mask
    shaExtendAux p f (window.tail ++ [nw]) (acc ++ [nw])

/-- One compression round; `kw` is `K[i] + W[i]` (mod word size is deferred). -/
def shaRound (p : ShaParams) (st : List Nat) (kw : Nat) : List Nat :=
  match st with
  | [a, b, c, d, e, f, g, h] =>
    let S1 := shaSigma p.wbits p.mask p.bigS1 false e
    let ch := (e &&& f) ^^^ ((p.mask ^^^ e) &&& g)
    let t1 := (h + S1 + ch + kw) &&& p.mask
    let S0 := shaSigma p.wbits p.mask p.bigS0 false a
    let mj := (a &&& b) ^^^ (a &&& c) ^^^ (b &&& c)
    let t2 := (S0 + mj) &&& p.mask
    [(t1 + t2) &&& p.mask, a, b, c, (d + t1) &&& p.mask, e, f, g]
  | _ => st

/-- Compress one block into the running state. -/
def shaBlock (p : ShaParams) (st : List Nat) (block : List Nat) : List Nat :=
  let ws0 := (chunks p.wordBytes block).map natOfBE
  let ws := shaExtendAux p (p.rounds - 16) ws0 ws0
  let kw := (List.zip p.k ws).map fun q => q.1 + q.2
  let fin := kw.foldl (shaRound p) st
  (List.zip st fin).map fun q => (q.1 + q.2) &&& p.mask

/-- SHA-2 padding: 0x80, zeros, then the bit length big-endian. -/
def shaPad (p : ShaParams) (msg : List Nat) : List Nat :=
  let L := msg.length
  let padLen := (p.blockBytes - ((L + 1 + p.lenBytes) % p.blockBytes)) % p.blockBytes
  msg ++ [0x80] ++ List.replicate padLen 0 ++ toBytesBE p.lenBytes (L * 8)

def shaRun (p : ShaParams) (msg : List Nat) : List Nat :=
  let st := (chunks p.blockBytes (shaPad p msg)).foldl (shaBlock p) p.h0
  st.flatMap (toBytesBE p.wordBytes)

def sha256Params : ShaParams where
  wordBytes := 4
  wbits := 32
  mask := 0xffffffff
  blockBytes := 64
  rounds := 64
  lenBytes := 8
  k := [1116352408, 1899447441, 3049323471, 3921009573, 961987163, 1508970993,
    2453635748, 2870763221, 3624381080, 310598401, 607225278, 1426881987,
    1925078388, 2162078206, 2614888103, 3248222580, 3835390401, 4022224774,
    264347078, 604807628, 770255983, 1249150122, 1555081692, 1996064986,
    2554220882, 2821834349, 2952996808, 3210313671, 3336571891, 3584528711,
    113926993, 338241895, 666307205, 773529912, 1294757372, 1396182291,
    1695183700, 1986661051, 2177026350, 2456956037, 2730485921, 2820302411,
    3259730800, 3345764771, 3516065817, 3600352804, 4094571909, 275423344,
    430227734, 506948616, 659060556, 883997877, 958139571, 1322822218,
    1537002063, 1747873779, 1955562222, 2024104815, 2227730452, 2361852424,
    2428436474, 2756734187, 3204031479, 3329325298]
  h0 := [1779033703, 3144134277, 1013904242, 2773480762, 1359893119, 2600822924,
    528734635, 1541459225]
  bigS0 := (2, 13, 22)
  bigS1 := (6, 11, 25)
  smallS0 := (7, 18, 3)
  smallS1 := (17, 19, 10)

def sha512Params : ShaParams where
  wordBytes := 8
  wbits := 64
  mask := 0xffffffffffffffff
  blockBytes := 128
  rounds := 80
  lenBytes := 16
  k := [4794697086780616226, 8158064640168781261, 13096744586834688815, 16840607885511220156,
    4131703408338449720, 6480981068601479193, 10538285296894168987, 12329834152419229976,
    15566598209576043074, 1334009975649890238, 2608012711638119052, 6128411473006802146,
    8268148722764581231, 9286055187155687089, 11230858885718282805, 13951009754708518548,
    16472876342353939154, 17275323862435702243, 1135362057144423861, 2597628984639134821,
    3308224258029322869, 5365058923640841347, 6679025012923562964, 8573033837759648693,
    10970295158949994411, 12119686244451234320, 12683024718118986047, 13788192230050041572,
    14330467153632333762, 15395433587784984357, 489312712824947311, 1452737877330783856,
    2861767655752347644, 3322285676063803686, 5560940570517711597, 5996557281743188959,
    7280758554555802590, 8532644243296465576, 9350256976987008742, 10552545826968843579,
    11727347734174303076, 12113106623233404929, 14000437183269869457, 14369950271660146224,
    15101387698204529176, 15463397548674623760, 17586052441742319658, 1182934255886127544,
    1847814050463011016, 2177327727835720531, 2830643537854262169, 3796741975233480872,
    4115178125766777443, 5681478168544905931, 6601373596472566643, 7507060721942968483,
    8399075790359081724, 8693463985226723168, 9568029438360202098, 10144078919501101548,
    10430055236837252648, 11840083180663258601, 13761210420658862357, 14299343276471374635,
    14566680578165727644, 15097957966210449927, 16922976911328602910, 17689382322260857208,
    500013540394364858, 748580250866718886, 1242879168328830382, 1977374033974150939,
    2944078676154940804, 3659926193048069267, 4368137639120453308, 4836135668995329356,
    5532061633213252278, 6448918945643986474, 6902733635092675308, 7801388544844847127]
  h0 := [7640891576956012808, 13503953896175478587, 4354685564936845355, 11912009170470909681,
    5840696475078001361, 11170449401992604703, 2270897969802886507, 6620516959819538809]
  bigS0 := (28, 34, 39)
  bigS1 := (14, 18, 41)
  smallS0 := (1, 8, 7)
  smallS1 := (19, 61, 6)

def sha256 (msg : List Nat) : List Nat := shaRun sha256Params msg
def sha512 (msg : List Nat) : List Nat := shaRun sha512Params msg

/-- HMAC-SHA512 (RFC 2104), block size 128 bytes. -/
def hmacSha512 (key msg : List Nat) : List Nat :=
  let k1 := if key.length > 128 then sha512 key else key
  let k0 := k1 ++ List.replicate (128 - k1.length) 0
  let ipad := k0.map (fun b => b ^^^ 0x36)
  let opad := k0.map (fun b => b ^^^ 0x5c)
  sha512 (opad ++ sha512 (ipad ++ msg))

/-! ### base58 and base58check (the `bs58check` collaborator) -/

def b58Alphabet : List Char :=
  "123456789ABCDEFGHJKLMNPQRSTUVWXYZabcdefghijkmnopqrstuvwxyz".data

def b58Char (d : Nat) : Char := b58Alphabet.getD d '?'

/-- Digit value of a base58 character (the alphabet's index, computed
arithmetically from the character code; `decide`-checked against
`b58Alphabet` in `b58DigitOf_b58Char` below). -/
def b58DigitOf (c : Char) : Option Nat :=
  let n := c.toNat
  if 49 ≤ n ∧ n ≤ 57 then some (n - 49)
  else if 65 ≤ n ∧ n ≤ 72 then some (n - 56)
  else if 74 ≤ n ∧ n ≤ 78 then some (n - 57)
  else if 80 ≤ n ∧ n ≤ 90 then some (n - 58)
  else if 97 ≤ n ∧ n ≤ 107 then some (n - 64)
  else if 109 ≤ n ∧ n ≤ 122 then some (n - 65)
  else none

def b58Encode (bytes : List Nat) : String :=
  let z := (bytes.takeWhile (· == 0)).length
  String.mk (List.replicate z '1' ++ (toDigitsMin 58 (natOfBE bytes)).map b58Char)

def b58Decode (s : String) : Option (List Nat) := do
  let digits ← s.data.mapM b58DigitOf
  let z := (digits.takeWhile (· == 0)).length
  pure (List.replicate z 0 ++ toDigitsMin 256 (natOfDigits 58 digits))

/-- `bs58check.encode`: append the 4-byte double-SHA256 checksum and base58-encode. -/
def bs58checkEncode (payload : List Nat) : String :=
  b58Encode (payload ++ (sha256 (sha256 payload)).take 4)

/-- `bs58check.decode`: base58-decode, split off and verify the checksum.
Failures (bad characters, bad checksum, fewer than 4 bytes) give `none`. -/
def bs58checkDecode (s : String) : Option (List Nat) := do
  let raw ← b58Decode s
  if raw.length < 4 then none
  else
    let payload := raw.take (raw.length - 4)
    let chk := raw.drop (raw.length - 4)
    if (sha256 (sha256 payload)).take 4 = chk then pure payload else none

/-! ### secp256k1 (the `tiny-secp256k1` collaborator)

Affine points are pairs `(x, y)`; scalar multiplication runs in Jacobian
coordinates `(X, Y, Z)` with `Z = 0` marking the point at infinity. -/

def secpP : Nat :=
  0xfffffffffffffffffffffffffffffffffffffffffffffffffffffffefffffc2f

def secpN : Nat :=
  0xfffffffffffffffffffffffffffffffffffffffffffffffebaaedce6af48a03bbfd25e8cd0364141

def secpGx : Nat :=
  0x79be667ef9dcbbac55a06295ce870b07029bfcdb2dce28d959f2815b16f81798

def secpGy : Nat :=
  0x483ada7726a3c4655da4fbfc0e1108a8fd17b448a68554199c47d08ffb10d4b8

/-- `a ^ e % m` by binary recursion on `e` (fuel = bit count bound). -/
def powModAux (m a : Nat) : Nat → Nat → Nat
  | 0, _ => 1
  | f + 1, e =>
    if e = 0 then 1 % m
    else
      let h := powModAux m a f (e / 2)
      if e % 2 = 1 then h * h % m * (a % m) % m else h * h % m

def powMod (a e m : Nat) : Nat := powModAux m a 300 e

def fInv (a : Nat) : Nat := powMod a (secpP - 2) secpP

def fSub (a b : Nat) : Nat := (a + secpP - b % secpP) % secpP

abbrev JacPoint := Nat × Nat × Nat

def jacInf : JacPoint := (1, 1, 0)

def jacOfAffine (pt : Nat × Nat) : JacPoint := (pt.1, pt.2, 1)

def jacDouble (p : JacPoint) : JacPoint :=
  let (x, y, z) := p
  if z = 0 ∨ y = 0 then jacInf
  else
    let s := 4 * x % secpP * y % secpP * y % secpP
    let m := 3 * x % secpP * x % secpP
    let x3 := fSub (m * m % secpP) (2 * s)
    let y4 := y * y % secpP * y % secpP * y % secpP
    let y3 := fSub (m * (fSub s x3) % secpP) (8 * y4)
    (x3, y3, 2 * y % secpP * z % secpP)

def jacAdd (p q : JacPoint) : JacPoint :=
  let (x1, y1, z1) := p
  let (x2, y2, z2) := q
  if z1 = 0 then q
  else if z2 = 0 then p
  else
    let z1s := z1 * z1 % secpP
    let z2s := z2 * z2 % secpP
    let u1 := x1 * z2s % secpP
    let u2 := x2 * z1s % secpP
    let s1 := y1 * z2s % secpP * z2 % secpP
    let s2 := y2 * z1s % secpP * z1 % secpP
    if u1 = u2 then
      if s1 ≠ s2 then jacInf else jacDouble p
    else
      let h := fSub u2 u1
      let r := fSub s2 s1
      let h2 := h * h % secpP
      let h3 := h2 * h % secpP
      let u1h2 := u1 * h2 % secpP
      let x3 := fSub (fSub (r * r % secpP) h3) (2 * u1h2)
      let y3 := fSub (r * (fSub u1h2 x3) % secpP) (s1 * h3 % secpP)
      (x3, y3, h * z1 % secpP * z2 % secpP)

/-- `k · P` by double-and-add (fuel = bit count bound). -/
def jacMulAux (pt : JacPoint) : Nat → Nat → JacPoint
  | 0, _ => jacInf
  | f + 1, k =>
    if k = 0 then jacInf
    else
      let q := jacDouble (jacMulAux pt f (k / 2))
      if k % 2 = 1 then jacAdd q pt else q

def jacMul (k : Nat) (pt : Nat × Nat) : JacPoint := jacMulAux (jacOfAffine pt) 300 k

def jacToAffine (p : JacPoint) : Option (Nat × Nat) :=
  let (x, y, z) := p
  if z = 0 then none
  else
    let zi := fInv z
    let zi2 := zi * zi % secpP
    some (x * zi2 % secpP, y * zi2 % secpP * zi % secpP)

/-- `ecc.pointAddScalar(P, IL)`: `P + IL·G`, `none` at infinity. -/
def pointAddScalar (pt : Nat × Nat) (k : Nat) : Option (Nat × Nat) :=
  jacToAffine (jacAdd (jacMul k (secpGx, secpGy)) (jacOfAffine pt))

/-- Decompress a 33-byte SEC1 public key; `none` when it is not a curve point
(this is `ecc.isPoint` combined with decompression). -/
def decompressPoint (b : List Nat) : Option (Nat × Nat) :=
  if b.length = 33 ∧ (b.getD 0 0 = 2 ∨ b.getD 0 0 = 3) then
    let x := natOfBE (b.drop 1)
    if x < secpP then
      let y2 := (x * x % secpP * x % secpP + 7) % secpP
      let y := powMod y2 ((secpP + 1) / 4) secpP
      if y * y % secpP = y2 then
        some (x, if y % 2 = b.getD 0 0 % 2 then y else secpP - y)
      else none
    else none
  else none

/-- Compress a point to its 33-byte SEC1 form. -/
def compressPoint (pt : Nat × Nat) : List Nat :=
  (2 + pt.2 % 2) :: toBytesBE 32 pt.1

/-! ### bech32 (BIP-173 segwit v0 address encoding) -/

def bech32Charset : List Char := "qpzry9x8gf2tvdw0s3jn54khce6mua7l".data

def bech32Gen : List Nat := [0x3b6a57b2, 0x26508e6d, 0x1ea119fa, 0x3d4233dd, 0x2a1462b3]

def bech32PolymodStep (chk x : Nat) : Nat :=
  let b := chk >>> 25
  let chk' := ((chk &&& 0x1ffffff) <<< 5) ^^^ x
  (List.range 5).foldl
    (fun c i => if (b >>> i) &&& 1 = 1 then c ^^^ bech32Gen.getD i 0 else c) chk'

def bech32Polymod (vals : List Nat) : Nat := vals.foldl bech32PolymodStep 1

def bech32HrpExpand (hrp : String) : List Nat :=
  (hrp.data.map fun c => c.toNat >>> 5) ++ [0] ++ (hrp.data.map fun c => c.toNat &&& 31)

/-- One byte step of 8-to-5-bit regrouping: the carry holds fewer than 5 bits,
so a byte yields one or two complete 5-bit groups. -/
def conv8to5Step (st : Nat × Nat × List Nat) (b : Nat) : Nat × Nat × List Nat :=
  let acc := (st.1 <<< 8) ||| b
  let bits := st.2.1 + 8
  if bits ≥ 10 then
    (acc, bits - 10,
      st.2.2 ++ [(acc >>> (bits - 5)) &&& 31, (acc >>> (bits - 10)) &&& 31])
  else
    (acc, bits - 5, st.2.2 ++ [(acc >>> (bits - 5)) &&& 31])

/-- Regroup 8-bit bytes into 5-bit groups, padding the tail with zeros. -/
def conv8to5 (data : List Nat) : List Nat :=
  let st := data.foldl conv8to5Step (0, 0, [])
  if st.2.1 = 0 then st.2.2 else st.2.2 ++ [(st.1 <<< (5 - st.2.1)) &&& 31]

def bech32Encode (hrp : String) (data : List Nat) : String :=
  let pm := bech32Polymod (bech32HrpExpand hrp ++ data ++ [0, 0, 0, 0, 0, 0]) ^^^ 1
  let chk := (List.range 6).map fun i => (pm >>> (5 * (5 - i))) &&& 31
  hrp ++ "1" ++ String.mk ((data ++ chk).map fun d => bech32Charset.getD d '?')

/-- Native segwit v0 address for a 32-byte witness program. -/
def segwitV0Address (hrp : String) (program : List Nat) : String :=
  bech32Encode hrp (0 :: conv8to5 program)

/-! ### Error taxonomy

One constructor per failure site reachable through this repository's code:
the spec's kinds (`MalformedKey`, `UnknownPrefix`, `MixedNetworks`,
`InvalidThreshold`, `TooManyCosigners`, `ScriptConstructionFailure`) plus the
distinct throws of the `bip32` collaborator that the repository does not
remap. `MalformedKey` covers invalid check-encodings and bad payload lengths
(the spec folds encoding, checksum and length failures into this kind). -/

inductive Err where
  | malformedKey
  | unknownPrefix
  | mixedNetworks
  | invalidThreshold
  | tooManyCosigners
  | scriptConstructionFailure
  | invalidNetworkVersion      -- bip32 fromBase58: version differs from the network's
  | invalidParentFingerprint   -- bip32 fromBase58: depth 0 with nonzero parent
  | invalidChildIndex          -- bip32 fromBase58: depth 0 with nonzero child number
  | invalidPoint               -- bip32 fromBase58: 33 key bytes not a curve point
  | missingPrivateKey          -- bip32 derive: hardened index on a public-only node
  | derivationFailure          -- bip32 derive: index space exhausted
  | runtimeTypeError           -- JS TypeError: property access on undefined
deriving DecidableEq, Repr

/-! ### Networks (`bitcoinjs-lib` `Network` objects)

Only the fields this repository's control flow consumes are modelled: the
bech32 human-readable part and the BIP-32 public version bytes. -/

structure NetworkParams where
  bech32 : String
  bip32public : Nat
deriving DecidableEq, Repr

/-- `networks.bitcoin`. -/
def bitcoinNetwork : NetworkParams := ⟨"bc", 0x0488b21e⟩

/-- `networks.testnet`. -/
def testnetNetwork : NetworkParams := ⟨"tb", 0x043587cf⟩

/-- `signetNetwork` from `src/index.ts` (tpub version bytes, `tb` HRP). -/
def signetNetwork : NetworkParams := ⟨"tb", 0x043587cf⟩

/-! ### BIP-32 public nodes (the `bip32` collaborator)

`BIP32Interface` carries more fields (depth, parent fingerprint, child
number); this repository only consumes `publicKey` after two `derive`
steps, so a node is its curve point and chain code.  The depth/fingerprint
consistency checks of `fromBase58` are still performed. -/

structure Bip32Node where
  point : Nat × Nat
  chainCode : List Nat
deriving DecidableEq, Repr

/-- `bip32.fromBase58(str, network)`: check-decode, validate length (78),
version bytes, depth-0 consistency and the public-key point.
The private-key (`xprv`-version) branch of the library is never reached from
this repository (normalization always yields public version bytes), so a
version other than `network.bip32.public` is rejected. -/
def bip32fromBase58 (s : String) (net : NetworkParams) : Except Err Bip32Node :=
  match bs58checkDecode s with
  | none => .error Err.malformedKey
  | some data =>
    if data.length ≠ 78 then .error Err.malformedKey
    else if natOfBE (data.take 4) ≠ net.bip32public then .error Err.invalidNetworkVersion
    else if data.getD 4 0 = 0 ∧ natOfBE ((data.drop 5).take 4) ≠ 0 then
      .error Err.invalidParentFingerprint
    else if data.getD 4 0 = 0 ∧ natOfBE ((data.drop 9).take 4) ≠ 0 then
      .error Err.invalidChildIndex
    else
      match decompressPoint ((data.drop 45).take 33) with
      | none => .error Err.invalidPoint
      | some pt => .ok ⟨pt, (data.drop 13).take 32⟩

/-- One CKD attempt plus the library's retry-on-next-index loop
(`if parse256(IL) >= n or Ki is infinity, proceed with the next i`);
fuel bounds the retries, standing for the 32-bit index space. -/
def bip32deriveAux (node : Bip32Node) : Nat → Nat → Except Err Bip32Node
  | 0, _ => .error Err.derivationFailure
  | f + 1, index =>
    if index ≥ 0x80000000 then .error Err.missingPrivateKey
    else
      let i := hmacSha512 node.chainCode (compressPoint node.point ++ toBytesBE 4 index)
      let il := natOfBE (i.take 32)
      let ir := i.drop 32
      if il = 0 ∨ il ≥ secpN then bip32deriveAux node f (index + 1)
      else
        match pointAddScalar node.point il with
        | none => bip32deriveAux node f (index + 1)
        | some pt => .ok ⟨pt, ir⟩

/-- `node.derive(index)` on a neutered (public-only) node. -/
def bip32derive (node : Bip32Node) (index : Nat) : Except Err Bip32Node :=
  bip32deriveAux node 0x100000000 index

/-! ### Script and address construction (`bitcoinjs-lib` payments)

`payments.p2ms` compiles `OP_m <pk1> ... <pkn> OP_n OP_CHECKMULTISIG`;
each 33-byte key is pushed with the single length byte 0x21, and
`OP_1`..`OP_16` are `0x50 + k`.  `payments.p2wsh` hashes the redeem script
with SHA-256 into a v0 witness program and bech32-encodes the address. -/

def p2msOutput (m : Nat) (pubkeys : List (List Nat)) : List Nat :=
  (0x50 + m) :: (pubkeys.flatMap fun k => 0x21 :: k) ++ [0x50 + pubkeys.length, 0xae]

def p2wshAddress (net : NetworkParams) (witnessScript : List Nat) : String :=
  segwitV0Address net.bech32 (sha256 witnessScript)

/-! ### The repository's own code (`src/index.ts`) -/

/-- `'mainnet' | 'testnet'` as inferred from key prefixes
(`Exclude<Net, 'signet'>`). -/
inductive KeyNet where
  | mainnet
  | testnet
deriving DecidableEq, Repr

/-- `Net = 'mainnet' | 'testnet' | 'signet'`. -/
inductive Net where
  | mainnet
  | testnet
  | signet
deriving DecidableEq, Repr

def KeyNet.toNet : KeyNet → Net
  | .mainnet => .mainnet
  | .testnet => .testnet

/-- The `VERSIONS` tables: SLIP-132 version constants keyed by textual
prefix, in `Object.keys` order. -/
def mainnetPrefixes : List String := ["xpub", "ypub", "zpub", "Ypub", "Zpub"]

def testnetPrefixes : List String := ["tpub", "upub", "vpub", "Upub", "Vpub"]

def versionsMainnetXpub : Nat := 0x0488b21e
def versionsTestnetTpub : Nat := 0x043587cf

def isMainnetPrefix (p : String) : Bool := mainnetPrefixes.contains p
def isTestnetPrefix (p : String) : Bool := testnetPrefixes.contains p

/-- JS `key.slice(0, 4)` on an ASCII string. -/
def sliceStr (s : String) (a b : Nat) : String := String.mk ((s.data.drop a).take (b - a))

/-- `detectPrefix`: the first four characters when they form a known prefix. -/
def detectPrefix (key : String) : Option String :=
  let p := sliceStr key 0 4
  if isMainnetPrefix p || isTestnetPrefix p then some p else none

/-- `prefixNetwork`. -/
def prefixNetwork (pref : String) : KeyNet :=
  if isMainnetPrefix pref then .mainnet else .testnet

/-- `replaceVersion`: check-decode, overwrite the first four bytes with
`toVersion` big-endian, re-encode.  `bs58check.decode` failure and the
`data.length < 4` guard are the `MalformedKey` failures. -/
def replaceVersion (extKey : String) (toVersion : Nat) : Except Err String :=
  match bs58checkDecode extKey with
  | none => throw Err.malformedKey
  | some data =>
    if data.length < 4 then throw Err.malformedKey
    else pure (bs58checkEncode (toBytesBE 4 toVersion ++ data.drop 4))

/-- `normalizeToNeutralPub`: detect the textual prefix, and rewrite the
version bytes to the network's neutral constant unless the key is already
`xpub`/`tpub`-prefixed (in which case it is returned unchanged, undecoded). -/
def normalizeToNeutralPub (extKey : String) : Except Err (String × KeyNet) := do
  match detectPrefix extKey with
  | none => throw Err.unknownPrefix
  | some pref =>
    let net := prefixNetwork pref
    let neutralVersion := if net = .mainnet then versionsMainnetXpub else versionsTestnetTpub
    let alreadyNeutral :=
      (net = KeyNet.mainnet ∧ pref = "xpub") ∨ (net = KeyNet.testnet ∧ pref = "tpub")
    if alreadyNeutral then pure (extKey, net)
    else do
      let k ← replaceVersion extKey neutralVersion
      pure (k, net)

/-- `enum CoinType { Mainnet = 0, Testnet = 1 }`. -/
inductive CoinType where
  | Mainnet
  | Testnet
deriving DecidableEq, Repr

def CoinType.val : CoinType → Nat
  | .Mainnet => 0
  | .Testnet => 1

/-- `enum ScriptType { P2WSH_P2SH = 1, P2WSH = 2 }`. -/
inductive ScriptType where
  | P2WSH_P2SH
  | P2WSH
deriving DecidableEq, Repr

def ScriptType.val : ScriptType → Nat
  | .P2WSH_P2SH => 1
  | .P2WSH => 2

/-- `enum ChangeChain { External = 0, Internal = 1 }`. -/
inductive ChangeChain where
  | External
  | Internal
deriving DecidableEq, Repr

def ChangeChain.val : ChangeChain → Nat
  | .External => 0
  | .Internal => 1

/-- `MultisigRequest`.  `m` is an `Int` (a JS `number` that passed
`Number.isInteger`; non-integral values are outside the embedding's domain,
where `Number.isInteger(m)` is identically true). -/
structure MultisigRequest where
  m : Int
  xpubs : List String
  change : ChangeChain
  index : Nat
  network : Option Net
  strictBip48 : Option Bool
deriving DecidableEq, Repr

/-- `MultisigResult`.  `redeemScriptHex` is `Option` for the `?` field and is
always `none` in this pure-P2WSH builder. -/
structure MultisigResult where
  address : String
  witnessScriptHex : String
  redeemScriptHex : Option String
  descriptorTemplate : String
  descriptorConcret : String
deriving DecidableEq, Repr

/-- Resolve the effective `bitcoinjs` network object from the chosen name. -/
def netParams : Net → NetworkParams
  | .mainnet => bitcoinNetwork
  | .signet => signetNetwork
  | .testnet => testnetNetwork

/-- Left-to-right effectful map over `Except` (a TS `Array.prototype.map`
whose callback may throw propagates the first exception). -/
def mapME (g : α → Except Err β) : List α → Except Err (List β)
  | [] => pure []
  | x :: t => do
    let y ← g x
    let r ← mapME g t
    pure (y :: r)

/-- `Buffer.compare` as a "≤" test (the sort comparator at line 236):
lexicographic on unsigned bytes, a strict prefix sorting before longer
buffers. -/
def bytesLe : List Nat → List Nat → Bool
  | [], _ => true
  | _ :: _, [] => false
  | a :: as, b :: bs => if a < b then true else if b < a then false else bytesLe as bs

/-- The comparator as a decidable relation, for `List.insertionSort`. -/
def bufLeR (a b : List Nat) : Prop := bytesLe a b = true

instance : DecidableRel bufLeR := fun a b => inferInstanceAs (Decidable (_ = true))

/-- The per-cosigner derivation chain (src/index.ts lines 230-234): parse
the neutral key against the resolved network, derive the non-hardened child
at `change` then at `index`, and return the compressed child public key. -/
def buildChildKey (key : String) (network : NetworkParams) (change index : Nat) :
    Except Err (List Nat) :=
  match bip32fromBase58 key network with
  | .error e => .error e
  | .ok node =>
    match bip32derive node change with
    | .error e => .error e
    | .ok child =>
      match bip32derive child index with
      | .error e => .error e
      | .ok child2 => .ok (compressPoint child2.point)

/-- `buildBip48P2wshAddress` (src/index.ts lines 199-254), with `throw`
rendered as `.error` early return.  The `strictBip48` advisory path only
calls `console.warn` (I/O) and cannot change the result; it is not
modelled.  The `normalized[0]` access is guarded by the threshold check
(`m ≥ 1` forces a cosigner to exist), so the `runtimeTypeError` branch
standing for the JS undefined-property TypeError is unreachable. -/
def buildBip48P2wshAddress (req : MultisigRequest) : Except Err MultisigResult :=
  if req.m < 1 ∨ req.m > (req.xpubs.length : Int) then .error Err.invalidThreshold
  else if req.xpubs.length > 15 then .error Err.tooManyCosigners
  else
    match mapME normalizeToNeutralPub req.xpubs with
    | .error e => .error e
    | .ok normalized =>
      match normalized.head? with
      | none => .error Err.runtimeTypeError
      | some n0 =>
        if normalized.any (fun n => n.2 ≠ n0.2) then .error Err.mixedNetworks
        else
          let chosenNet := req.network.getD n0.2.toNet
          let network := netParams chosenNet
          match mapME (fun n => buildChildKey n.1 network req.change.val req.index)
              normalized with
          | .error e => .error e
          | .ok childPubkeys =>
            let sortedPubkeys := childPubkeys.insertionSort bufLeR
            let p2msScript := p2msOutput req.m.toNat sortedPubkeys
            let templateKeys := normalized.map (fun n => n.1 ++ "/0/*")
            let concretKeys := normalized.map
              (fun n => n.1 ++ "/" ++ natToDec req.change.val ++ "/" ++ natToDec req.index)
            .ok
              { address := p2wshAddress network p2msScript
                witnessScriptHex := bytesToHex p2msScript
                redeemScriptHex := none
                descriptorTemplate := "wsh(sortedmulti(" ++ intToDec req.m ++ "," ++
                  String.intercalate "," templateKeys ++ "))"
                descriptorConcret := "wsh(sortedmulti(" ++ intToDec req.m ++ "," ++
                  String.intercalate "," concretKeys ++ "))" }

/-- `DeriveParams`. -/
structure DeriveParams where
  m : Int
  xpubs : List String
  change : ChangeChain
  start : Nat
  count : Nat
  account : Option Nat
  scriptType : Option ScriptType
  coinType : Option CoinType
  network : Option Net
  strictBip48 : Option Bool
deriving DecidableEq, Repr

/-- `DerivedResult = MultisigResult & { index, path }`. -/
structure DerivedResult where
  address : String
  witnessScriptHex : String
  redeemScriptHex : Option String
  descriptorTemplate : String
  descriptorConcret : String
  index : Nat
  path : String
deriving DecidableEq, Repr

/-- The derivation path string attached to each bulk result:
`m/48'/${coinType}'/${account}'/${scriptType}'/${change}/${index}`. -/
def bip48Path (coinType : CoinType) (account : Nat) (scriptType : ScriptType)
    (change : ChangeChain) (index : Nat) : String :=
  "m/48'/" ++ natToDec coinType.val ++ "'/" ++ natToDec account ++ "'/" ++
    natToDec scriptType.val ++ "'/" ++ natToDec change.val ++ "/" ++ natToDec index

/-- The loop body of `deriveBip48Addresses`: indices `start, start+1, ...`
for `count` iterations, each a fresh `buildBip48P2wshAddress` call. -/
def deriveBip48Aux (params : DeriveParams) (account : Nat) (scriptType : ScriptType)
    (coinType : CoinType) : Nat → Nat → Except Err (List DerivedResult)
  | _, 0 => .ok []
  | index, c + 1 =>
    match buildBip48P2wshAddress
      { m := params.m, xpubs := params.xpubs, change := params.change,
        index := index, network := params.network,
        strictBip48 := params.strictBip48 } with
    | .error e => .error e
    | .ok res =>
      match deriveBip48Aux params account scriptType coinType (index + 1) c with
      | .error e => .error e
      | .ok rest =>
        .ok ({ address := res.address, witnessScriptHex := res.witnessScriptHex,
               redeemScriptHex := res.redeemScriptHex,
               descriptorTemplate := res.descriptorTemplate,
               descriptorConcret := res.descriptorConcret,
               index := index,
               path := bip48Path coinType account scriptType params.change index } :: rest)

/-- `deriveBip48Addresses` (src/index.ts lines 278-302), with the
destructuring defaults `account = 0`, `scriptType = P2WSH`,
`coinType = Testnet`. -/
def deriveBip48Addresses (params : DeriveParams) : Except Err (List DerivedResult) :=
  deriveBip48Aux params (params.account.getD 0) (params.scriptType.getD .P2WSH)
    (params.coinType.getD .Testnet) params.start params.count


/-- First account-level signet/testnet tpub of the spec's concrete scenario
(test/multisig-bip48.spec.ts). -/
def TPUB0 : String :=
  "tpubDFErwxEibF1d8NwR7wG9KUz94F8JAFJJPz5GQFeGVcz6ssgEr5nWsPkpbcpn6KPcDPgYrSofnya2kbm196He327iWCRK9nVkxuz8ZjT9cXG"

/-- Second account-level tpub of the concrete scenario. -/
def TPUB1 : String :=
  "tpubDF6CqZd1yujcP79jyEvuC4f5rMNByCqgomZhtfgV6LprZGoxxmzH5LuDPvybL8rzCzJpXynsSARzmN9SoYdLKpLq5ZGwED6vE4mXpLS6gDH"

/-- Third account-level tpub of the concrete scenario. -/
def TPUB2 : String :=
  "tpubDFhQCkPCwwcaMPrmzrbqM4SKcea9Uj1sXnpx3Q9ezZhsxn9cP8Csbt1cw39yA3YmqFNU2UNMXUaWD1vmU5f5TdvB2ZMW3hvTYqjKLmtVztt"

/-- The three account-level signet/testnet tpubs of the spec's concrete
scenario (test/multisig-bip48.spec.ts). -/
def TPUBS : List String := [TPUB0, TPUB1, TPUB2]

/-! ### Digit-representation lemmas -/

theorem digitsAux_zero (b f : Nat) : digitsAux b f 0 = [] := by
  cases f <;> simp [digitsAux]

theorem digitsAux_fuel (b : Nat) (hb : 2 ≤ b) :
    ∀ f f' n, n ≤ f → n ≤ f' → digitsAux b f n = digitsAux b f' n := by
  intro f
  induction f with
  | zero =>
    intro f' n hn _
    have : n = 0 := Nat.le_zero.mp hn
    subst this
    rw [digitsAux_zero, digitsAux_zero]
  | succ f ih =>
    intro f' n hn hn'
    rcases Nat.eq_zero_or_pos n with h0 | hpos
    · subst h0; rw [digitsAux_zero, digitsAux_zero]
    · cases f' with
      | zero => omega
      | succ f'' =>
        have hdiv : n / b < n := Nat.div_lt_self hpos (by omega)
        simp only [digitsAux, if_neg (Nat.pos_iff_ne_zero.mp hpos)]
        rw [ih f'' (n / b) (by omega) (by omega)]

theorem toDigitsMin_zero (b : Nat) : toDigitsMin b 0 = [] := rfl

theorem toDigitsMin_succ (b n : Nat) (hb : 2 ≤ b) (hn : n ≠ 0) :
    toDigitsMin b n = toDigitsMin b (n / b) ++ [n % b] := by
  have hdiv : n / b < n := Nat.div_lt_self (Nat.pos_of_ne_zero hn) (by omega)
  unfold toDigitsMin
  cases n with
  | zero => exact absurd rfl hn
  | succ m =>
    simp only [digitsAux, if_neg hn]
    rw [digitsAux_fuel b hb m ((m + 1) / b) ((m + 1) / b) (by omega) (Nat.le_refl _)]

theorem toDigitsMin_lt (b : Nat) (hb : 2 ≤ b) :
    ∀ n d, d ∈ toDigitsMin b n → d < b := by
  intro n
  induction n using Nat.strong_induction_on with
  | _ n ih =>
    intro d hd
    rcases Nat.eq_zero_or_pos n with h0 | hpos
    · subst h0; simp [toDigitsMin_zero] at hd
    · rw [toDigitsMin_succ b n hb (Nat.pos_iff_ne_zero.mp hpos)] at hd
      rcases List.mem_append.mp hd with h | h
      · exact ih (n / b) (Nat.div_lt_self hpos (by omega)) d h
      · simp at h; subst h; exact Nat.mod_lt n (by omega)

theorem toDigitsMin_ne_nil (b n : Nat) (hb : 2 ≤ b) (hn : n ≠ 0) :
    toDigitsMin b n ≠ [] := by
  rw [toDigitsMin_succ b n hb hn]; simp

theorem toDigitsMin_head (b : Nat) (hb : 2 ≤ b) :
    ∀ n, (toDigitsMin b n).head? ≠ some 0 := by
  intro n
  induction n using Nat.strong_induction_on with
  | _ n ih =>
    rcases Nat.eq_zero_or_pos n with h0 | hpos
    · subst h0; simp [toDigitsMin_zero]
    · have hn := Nat.pos_iff_ne_zero.mp hpos
      rw [toDigitsMin_succ b n hb hn]
      by_cases hq : n / b = 0
      · have hlt : n < b := (Nat.div_eq_zero_iff (by omega)).mp hq
        rw [hq, toDigitsMin_zero, List.nil_append]
        have : n % b = n := Nat.mod_eq_of_lt hlt
        simp [this, hn]
      · obtain ⟨x, t, hx⟩ := List.exists_cons_of_ne_nil
          (toDigitsMin_ne_nil b (n / b) hb hq)
        rw [hx, List.cons_append, List.head?_cons]
        have := ih (n / b) (Nat.div_lt_self hpos (by omega))
        rw [hx, List.head?_cons] at this
        exact this

theorem foldl_shift (b : Nat) : ∀ (t : List Nat) (a : Nat),
    t.foldl (fun a d => a * b + d) a =
      a * b ^ t.length + t.foldl (fun a d => a * b + d) 0 := by
  intro t
  induction t with
  | nil => intro a; simp
  | cons d t ih =>
    intro a
    simp only [List.foldl_cons, List.length_cons]
    rw [ih (a * b + d), ih (0 * b + d)]
    ring

theorem natOfDigits_cons (b x : Nat) (t : List Nat) :
    natOfDigits b (x :: t) = x * b ^ t.length + natOfDigits b t := by
  unfold natOfDigits
  simp only [List.foldl_cons]
  rw [foldl_shift]
  simp

theorem natOfDigits_append (b : Nat) (l1 l2 : List Nat) :
    natOfDigits b (l1 ++ l2) = natOfDigits b l1 * b ^ l2.length + natOfDigits b l2 := by
  unfold natOfDigits
  rw [List.foldl_append, foldl_shift]

theorem natOfDigits_toDigitsMin (b : Nat) (hb : 2 ≤ b) :
    ∀ n, natOfDigits b (toDigitsMin b n) = n := by
  intro n
  induction n using Nat.strong_induction_on with
  | _ n ih =>
    rcases Nat.eq_zero_or_pos n with h0 | hpos
    · subst h0; rfl
    · have hn := Nat.pos_iff_ne_zero.mp hpos
      rw [toDigitsMin_succ b n hb hn, natOfDigits_append]
      have h1 : natOfDigits b [n % b] = n % b := by
        unfold natOfDigits; simp
      rw [h1, ih (n / b) (Nat.div_lt_self hpos (by omega))]
      simp only [List.length_cons, List.length_nil, Nat.zero_add, pow_one]
      rw [Nat.mul_comm]
      exact Nat.div_add_mod n b

theorem natOfDigits_pos (b x : Nat) (t : List Nat) (hb : 1 ≤ b) (hx : x ≠ 0) :
    0 < natOfDigits b (x :: t) := by
  rw [natOfDigits_cons]
  have : 0 < b ^ t.length := Nat.pos_pow_of_pos _ hb
  have : 0 < x * b ^ t.length := Nat.mul_pos (Nat.pos_of_ne_zero hx) this
  omega

theorem toDigitsMin_natOfDigits (b : Nat) (hb : 2 ≤ b) :
    ∀ l, (∀ x ∈ l, x < b) → l.head? ≠ some 0 →
    toDigitsMin b (natOfDigits b l) = l := by
  intro l
  induction l using List.reverseRecOn with
  | nil => intro _ _; rfl
  | append_singleton l d ih =>
    intro hlt hhead
    have hd : d < b := hlt d (by simp)
    rw [natOfDigits_append]
    have h1 : natOfDigits b [d] = d := by unfold natOfDigits; simp
    simp only [List.length_cons, List.length_nil, Nat.zero_add, pow_one, h1]
    cases l with
    | nil =>
      have hd0 : d ≠ 0 := by
        simp only [List.nil_append, List.head?_cons] at hhead
        intro h; exact hhead (by rw [h])
      simp only [natOfDigits, List.foldl_nil, Nat.zero_mul, Nat.zero_add]
      rw [toDigitsMin_succ b d hb hd0]
      rw [Nat.div_eq_of_lt hd, Nat.mod_eq_of_lt hd, toDigitsMin_zero, List.nil_append]
    | cons x t =>
      have hx : x ≠ 0 := by
        simp only [List.cons_append, List.head?_cons] at hhead
        intro h; exact hhead (by rw [h])
      have hN : 0 < natOfDigits b (x :: t) := natOfDigits_pos b x t (by omega) hx
      set N := natOfDigits b (x :: t) with hNdef
      have hne : N * b + d ≠ 0 := by
        have : 0 < N * b := Nat.mul_pos hN (by omega)
        omega
      rw [toDigitsMin_succ b (N * b + d) hb hne]
      have hdiv : (N * b + d) / b = N := by
        rw [Nat.add_comm, Nat.add_mul_div_right d N (by omega : 0 < b),
          Nat.div_eq_of_lt hd]
        omega
      have hmod : (N * b + d) % b = d := by
        rw [Nat.add_comm, Nat.add_mul_mod_self_right, Nat.mod_eq_of_lt hd]
      rw [hdiv, hmod, hNdef, ih (fun y hy => hlt y (List.mem_append_left _ hy))
        (by simpa using hhead)]

/-! ### base58 roundtrip -/

theorem b58DigitOf_b58Char : ∀ d < 58, b58DigitOf (b58Char d) = some d := by decide

theorem mapM_encodeChars : ∀ (z : Nat) (ds : List Nat), (∀ d ∈ ds, d < 58) →
    List.mapM b58DigitOf (List.replicate z '1' ++ ds.map b58Char) =
      some (List.replicate z 0 ++ ds) := by
  intro z
  induction z with
  | zero =>
    intro ds
    induction ds with
    | nil => intro _; rfl
    | cons d t ih =>
      intro hds
      simp only [List.replicate_zero, List.nil_append, List.map_cons, List.mapM_cons] at ih ⊢
      rw [b58DigitOf_b58Char d (hds d (by simp))]
      rw [ih (fun d hd => hds d (by simp [hd]))]
      rfl
  | succ z ih =>
    intro ds hds
    simp only [List.replicate_succ, List.cons_append, List.mapM_cons]
    rw [show b58DigitOf '1' = some 0 from rfl, ih ds hds]
    rfl

theorem natOfDigits_replicate_zero (b : Nat) : ∀ z, natOfDigits b (List.replicate z 0) = 0 := by
  intro z
  induction z with
  | zero => rfl
  | succ z ih =>
    simp only [List.replicate_succ, natOfDigits, List.foldl_cons]
    simpa [natOfDigits] using ih

theorem takeWhile_zeros_append (z : Nat) (t : List Nat) :
    (List.replicate z 0 ++ t).takeWhile (· == 0) =
      List.replicate z 0 ++ t.takeWhile (· == 0) := by
  induction z with
  | zero => rfl
  | succ z ih => simp only [List.replicate_succ, List.cons_append, List.takeWhile_cons, ih]; rfl

theorem dropWhile_head_not (p : Nat → Bool) :
    ∀ (l : List Nat) (a : Nat), (l.dropWhile p).head? = some a → p a = false := by
  intro l
  induction l with
  | nil => intro a h; simp [List.dropWhile] at h
  | cons x t ih =>
    intro a h
    rw [List.dropWhile_cons] at h
    by_cases hp : p x
    · rw [if_pos hp] at h; exact ih a h
    · rw [if_neg hp] at h
      simp only [List.head?_cons, Option.some_inj] at h
      subst h
      exact Bool.not_eq_true _ ▸ (by simpa using hp)

theorem b58Decode_b58Encode (x : List Nat) (hx : ∀ a ∈ x, a < 256) :
    b58Decode (b58Encode x) = some x := by
  have h58 : (2 : Nat) ≤ 58 := by omega
  have h256 : (2 : Nat) ≤ 256 := by omega
  set z := (x.takeWhile (· == 0)).length with hz
  set N := natOfBE x with hN
  set ds := toDigitsMin 58 N with hds
  have hdslt : ∀ d ∈ ds, d < 58 := fun d hd => toDigitsMin_lt 58 h58 N d hd
  show ((String.mk (List.replicate z '1' ++ ds.map b58Char)).data.mapM b58DigitOf).bind _ = _
  rw [show (String.mk (List.replicate z '1' ++ ds.map b58Char)).data =
    List.replicate z '1' ++ ds.map b58Char from rfl]
  rw [mapM_encodeChars z ds hdslt]
  simp only [Option.some_bind]
  have htake : (List.replicate z 0 ++ ds).takeWhile (· == 0) = List.replicate z 0 := by
    rw [takeWhile_zeros_append]
    have : ds.takeWhile (· == 0) = [] := by
      cases hc : ds with
      | nil => rfl
      | cons d t =>
        have hhead := toDigitsMin_head 58 h58 N
        rw [← hds, hc, List.head?_cons] at hhead
        have hd0 : d ≠ 0 := fun h => hhead (by rw [h])
        rw [List.takeWhile_cons, if_neg (by simpa using hd0)]
    rw [this, List.append_nil]
  have hval : natOfDigits 58 (List.replicate z 0 ++ ds) = N := by
    rw [natOfDigits_append, natOfDigits_replicate_zero, Nat.zero_mul, Nat.zero_add,
      hds, natOfDigits_toDigitsMin 58 h58]
  have hxsplit : List.replicate z 0 = x.takeWhile (· == 0) := by
    symm
    rw [List.eq_replicate_iff]
    constructor
    · exact hz.symm
    · intro c hc
      have := List.mem_takeWhile_imp hc
      simpa using this
  have hrest : toDigitsMin 256 N = x.dropWhile (· == 0) := by
    have hx2 : x = x.takeWhile (· == 0) ++ x.dropWhile (· == 0) :=
      (List.takeWhile_append_dropWhile (· == 0) x).symm
    have hNv : N = natOfDigits 256 (x.dropWhile (· == 0)) := by
      rw [hN, show natOfBE x = natOfDigits 256 x from rfl]
      conv_lhs => rw [hx2]
      rw [← hxsplit, natOfDigits_append, natOfDigits_replicate_zero, Nat.zero_mul,
        Nat.zero_add]
    rw [hNv]
    apply toDigitsMin_natOfDigits 256 h256
    · intro a ha
      exact hx a (List.dropWhile_sublist (· == 0) |>.mem ha)
    · intro hcontra
      cases hh : (x.dropWhile (· == 0)).head? with
      | none => rw [hh] at hcontra; simp at hcontra
      | some a =>
        rw [hh] at hcontra
        have := dropWhile_head_not (· == 0) x a hh
        simp only [Option.some_inj] at hcontra
        subst hcontra
        simp at this
  rw [htake, List.length_replicate, hval, hrest, hxsplit,
    List.takeWhile_append_dropWhile]
  rfl

/-! ### SHA output shape and the bs58check roundtrip -/

theorem length_toBytesBE : ∀ w n, (toBytesBE w n).length = w := by
  intro w
  induction w with
  | zero => intro n; rfl
  | succ w ih => intro n; simp [toBytesBE, ih]

theorem mem_toBytesBE_lt : ∀ w n a, a ∈ toBytesBE w n → a < 256 := by
  intro w
  induction w with
  | zero => intro n a h; simp [toBytesBE] at h
  | succ w ih =>
    intro n a h
    simp only [toBytesBE, List.mem_append, List.mem_singleton] at h
    rcases h with h | h
    · exact ih _ a h
    · subst h; exact Nat.mod_lt _ (by omega)

theorem length_shaRound (p : ShaParams) (st : List Nat) (kw : Nat)
    (h : st.length = 8) : (shaRound p st kw).length = 8 := by
  rcases st with _ | ⟨a, _ | ⟨b, _ | ⟨c, _ | ⟨d, _ | ⟨e, _ | ⟨f, _ | ⟨g, _ | ⟨hh, _ | ⟨i, t⟩⟩⟩⟩⟩⟩⟩⟩⟩ <;>
    simp_all [shaRound]

theorem length_shaFold (p : ShaParams) :
    ∀ (kw : List Nat) (st : List Nat), st.length = 8 →
      (kw.foldl (shaRound p) st).length = 8 := by
  intro kw
  induction kw with
  | nil => intro st h; simpa using h
  | cons k t ih =>
    intro st h
    simp only [List.foldl_cons]
    exact ih _ (length_shaRound p st k h)

theorem length_shaBlock (p : ShaParams) (st bl : List Nat) (h : st.length = 8) :
    (shaBlock p st bl).length = 8 := by
  unfold shaBlock
  simp only [List.length_map, List.length_zip, h]
  rw [length_shaFold p _ st h]
  simp

theorem length_shaState (p : ShaParams) :
    ∀ (blocks : List (List Nat)) (st : List Nat), st.length = 8 →
      (blocks.foldl (shaBlock p) st).length = 8 := by
  intro blocks
  induction blocks with
  | nil => intro st h; simpa using h
  | cons bl t ih =>
    intro st h
    simp only [List.foldl_cons]
    exact ih _ (length_shaBlock p st bl h)

theorem length_flatMap_bytes (w : Nat) :
    ∀ (l : List Nat), (l.flatMap (toBytesBE w)).length = w * l.length := by
  intro l
  induction l with
  | nil => simp
  | cons a t ih =>
    simp only [List.flatMap_cons, List.length_append, length_toBytesBE, ih,
      List.length_cons]
    ring

theorem length_shaRun (p : ShaParams) (h : p.h0.length = 8) (msg : List Nat) :
    (shaRun p msg).length = p.wordBytes * 8 := by
  unfold shaRun
  rw [length_flatMap_bytes, length_shaState p _ _ h]

theorem length_sha256 (msg : List Nat) : (sha256 msg).length = 32 :=
  length_shaRun sha256Params rfl msg

theorem mem_shaRun_lt (p : ShaParams) (msg : List Nat) :
    ∀ a ∈ shaRun p msg, a < 256 := by
  intro a ha
  unfold shaRun at ha
  obtain ⟨w, _, hw⟩ := List.mem_flatMap.mp ha
  exact mem_toBytesBE_lt _ _ a hw

theorem bs58checkDecode_encode (payload : List Nat) (hp : ∀ a ∈ payload, a < 256) :
    bs58checkDecode (bs58checkEncode payload) = some payload := by
  unfold bs58checkEncode bs58checkDecode
  set chk := (sha256 (sha256 payload)).take 4 with hchk
  have hchklen : chk.length = 4 := by
    rw [hchk, List.length_take, length_sha256]
    rfl
  have hmem : ∀ a ∈ payload ++ chk, a < 256 := by
    intro a ha
    rcases List.mem_append.mp ha with h | h
    · exact hp a h
    · exact mem_shaRun_lt sha256Params _ a (List.mem_of_mem_take h)
  rw [b58Decode_b58Encode _ hmem]
  simp only [Option.pure_def, Option.bind_eq_bind, Option.some_bind]
  have hlen : (payload ++ chk).length = payload.length + 4 := by
    rw [List.length_append, hchklen]
  rw [if_neg (by omega)]
  have htk : (payload ++ chk).length - 4 = payload.length := by omega
  rw [htk, List.take_left, List.drop_left, if_pos rfl]

/-! ### `Except` reduction helpers -/

theorem exbind_ok {α β : Type} (x : α) (f : α → Except Err β) :
    (Except.ok x >>= f : Except Err β) = f x := rfl

theorem exbind_error {α β : Type} (e : Err) (f : α → Except Err β) :
    ((Except.error e : Except Err α) >>= f) = Except.error e := rfl

theorem expure {α : Type} (x : α) : (pure x : Except Err α) = Except.ok x := rfl

theorem exthrow {α : Type} (e : Err) : (throw e : Except Err α) = Except.error e := rfl

/-! ### Byte ranges of decoded payloads -/

theorem b58Decode_mem_lt (s : String) (raw : List Nat) (h : b58Decode s = some raw) :
    ∀ a ∈ raw, a < 256 := by
  unfold b58Decode at h
  cases hm : s.data.mapM b58DigitOf with
  | none => rw [hm] at h; simp at h
  | some digits =>
    rw [hm] at h
    simp only [Option.pure_def, Option.bind_eq_bind, Option.some_bind,
      Option.some_inj] at h
    subst h
    intro a ha
    rcases List.mem_append.mp ha with h | h
    · rw [List.eq_of_mem_replicate h]; omega
    · exact toDigitsMin_lt 256 (by omega) _ a h

theorem bs58checkDecode_mem_lt (s : String) (d : List Nat)
    (h : bs58checkDecode s = some d) : ∀ a ∈ d, a < 256 := by
  unfold bs58checkDecode at h
  cases hr : b58Decode s with
  | none => rw [hr] at h; simp at h
  | some raw =>
    rw [hr] at h
    simp only [Option.pure_def, Option.bind_eq_bind, Option.some_bind] at h
    split at h
    · simp at h
    · split at h
      · simp only [Option.some_inj] at h
        subst h
        intro a ha
        exact b58Decode_mem_lt s raw hr a (List.take_subset _ _ ha)
      · simp at h

/-- `replaceVersion` success characterisation: the produced key re-encodes
the decoded payload with its first four bytes replaced. -/
theorem replaceVersion_eq_none (k : String) (v : Nat)
    (h : bs58checkDecode k = none) :
    replaceVersion k v = Except.error Err.malformedKey := by
  unfold replaceVersion; rw [h]; rfl

theorem replaceVersion_eq_some (k : String) (v : Nat) (data : List Nat)
    (h : bs58checkDecode k = some data) :
    replaceVersion k v =
      if data.length < 4 then Except.error Err.malformedKey
      else Except.ok (bs58checkEncode (toBytesBE 4 v ++ data.drop 4)) := by
  unfold replaceVersion; rw [h]; rfl

theorem replaceVersion_ok (k : String) (v : Nat) (kk : String)
    (h : replaceVersion k v = .ok kk) :
    ∃ data, bs58checkDecode k = some data ∧ 4 ≤ data.length ∧
      kk = bs58checkEncode (toBytesBE 4 v ++ data.drop 4) := by
  cases hd : bs58checkDecode k with
  | none =>
    rw [replaceVersion_eq_none k v hd] at h
    exact Except.noConfusion h
  | some data =>
    rw [replaceVersion_eq_some k v data hd] at h
    split at h
    · exact Except.noConfusion h
    · rename_i hlen
      simp only [Except.ok.injEq] at h
      exact ⟨data, rfl, by omega, h.symm⟩

/-- C4: check-decoding a normalized key agrees with the original key on every
byte from offset 4 on (depth, parent fingerprint, child number, chain code,
public key); only the version bytes (and the checksum outside the decoded
payload) change. -/
theorem c4_normalize_preserves_fields (k k' : String) (net : KeyNet)
    (hok : normalizeToNeutralPub k = .ok (k', net))
    (hsome : (bs58checkDecode k).isSome = true) :
    ∃ data data', bs58checkDecode k = some data ∧ bs58checkDecode k' = some data' ∧
      data'.drop 4 = data.drop 4 := by
  obtain ⟨data, hdata⟩ := Option.isSome_iff_exists.mp hsome
  unfold normalizeToNeutralPub at hok
  split at hok
  · rw [exthrow] at hok; exact Except.noConfusion hok
  · rename_i pref heq
    simp only [] at hok
    split at hok
    · simp only [expure, Except.ok.injEq, Prod.mk.injEq] at hok
      exact ⟨data, data, hdata, hok.1 ▸ hdata, rfl⟩
    · cases hrv : replaceVersion k
        (if prefixNetwork pref = KeyNet.mainnet then versionsMainnetXpub
          else versionsTestnetTpub) with
      | error e =>
        rw [hrv, exbind_error] at hok
        exact Except.noConfusion hok
      | ok kk =>
        rw [hrv, exbind_ok] at hok
        simp only [expure, Except.ok.injEq, Prod.mk.injEq] at hok
        obtain ⟨hkk, _⟩ := hok
        obtain ⟨data2, hdata2, hlen2, hkeq⟩ := replaceVersion_ok _ _ _ hrv
        rw [hdata] at hdata2
        injection hdata2 with hdd
        subst hdd
        set v := if prefixNetwork pref = KeyNet.mainnet then versionsMainnetXpub
          else versionsTestnetTpub with hv
        refine ⟨data, toBytesBE 4 v ++ data.drop 4, hdata, ?_, ?_⟩
        · rw [← hkk, hkeq]
          apply bs58checkDecode_encode
          intro a ha
          rcases List.mem_append.mp ha with h | h
          · exact mem_toBytesBE_lt 4 v a h
          · exact bs58checkDecode_mem_lt k data hdata a (List.drop_subset _ _ h)
        · rw [List.drop_left' (length_toBytesBE 4 v)]

/-! ### Vanity-prefix stability of re-encoded extended keys -/

/-- Fixed-width base-`b` digits of `r` (the low `k` digits). -/
def padDigits (b : Nat) : Nat → Nat → List Nat
  | 0, _ => []
  | k + 1, r => padDigits b k (r / b) ++ [r % b]

theorem natOfDigits_lt_pow (b : Nat) (hb : 1 ≤ b) :
    ∀ l, (∀ a ∈ l, a < b) → natOfDigits b l < b ^ l.length := by
  intro l
  induction l with
  | nil => intro _; simp [natOfDigits]
  | cons x t ih =>
    intro hm
    rw [natOfDigits_cons, List.length_cons]
    have h1 : natOfDigits b t < b ^ t.length := ih (fun a ha => hm a (by simp [ha]))
    have h2 : x + 1 ≤ b := hm x (by simp)
    calc x * b ^ t.length + natOfDigits b t
        < x * b ^ t.length + b ^ t.length := by omega
      _ = (x + 1) * b ^ t.length := by ring
      _ ≤ b * b ^ t.length := Nat.mul_le_mul_right _ h2
      _ = b ^ (t.length + 1) := by ring

theorem toDigitsMin_decomp (b : Nat) (hb : 2 ≤ b) :
    ∀ (k q r : Nat), 0 < q → r < b ^ k →
      toDigitsMin b (q * b ^ k + r) = toDigitsMin b q ++ padDigits b k r := by
  intro k
  induction k with
  | zero =>
    intro q r _ hr
    have : r = 0 := by simpa using hr
    subst this
    simp [padDigits]
  | succ k ih =>
    intro q r hq hr
    have hb0 : 0 < b := by omega
    have harith : q * b ^ (k + 1) + r = r + q * b ^ k * b := by ring
    have hne : q * b ^ (k + 1) + r ≠ 0 := by
      have : 0 < b ^ (k + 1) := Nat.pos_pow_of_pos _ hb0
      have : 0 < q * b ^ (k + 1) := Nat.mul_pos hq this
      omega
    rw [toDigitsMin_succ b _ hb hne]
    have hdiv : (q * b ^ (k + 1) + r) / b = q * b ^ k + r / b := by
      rw [harith, Nat.add_mul_div_right _ _ hb0, Nat.add_comm]
    have hmod : (q * b ^ (k + 1) + r) % b = r % b := by
      rw [harith, Nat.add_mul_mod_self_right]
    have hrb : r / b < b ^ k := by
      rw [Nat.div_lt_iff_lt_mul hb0]
      calc r < b ^ (k + 1) := hr
        _ = b ^ k * b := by ring
    rw [hdiv, hmod, ih q (r / b) hq hrb, padDigits, List.append_assoc]

theorem sliceStr_mk (l : List Char) (n : Nat) :
    sliceStr (String.mk l) 0 n = String.mk (l.take n) := by
  unfold sliceStr
  simp

/-- Re-encoding a 78-byte payload whose four version bytes are `V` yields a
string whose first four characters are determined by `V` alone: the encoded
82-byte value lies in an interval on which the leading base-58 digits are
constant. -/
theorem encode_prefix_core (V Q : Nat) (c4 : List Char) (r : List Nat)
    (hr : r.length = 74) (hm : ∀ a ∈ r, a < 256)
    (hb0 : natOfBE (toBytesBE 4 V) = V)
    (hhead : ∃ b0 t, toBytesBE 4 V = b0 :: t ∧ (b0 == 0) = false)
    (hqlo : (V * 256 ^ 78) / 58 ^ 107 = Q)
    (hqhi : ((V + 1) * 256 ^ 78 - 1) / 58 ^ 107 = Q)
    (hQpos : 0 < Q)
    (hQlen : (toDigitsMin 58 Q).length = 4)
    (hQchars : (toDigitsMin 58 Q).map b58Char = c4) :
    sliceStr (bs58checkEncode (toBytesBE 4 V ++ r)) 0 4 = String.mk c4 := by
  obtain ⟨b0, t, hbt, hb0ne⟩ := hhead
  unfold bs58checkEncode b58Encode
  set payload := toBytesBE 4 V ++ r with hpayload
  set chk := (sha256 (sha256 payload)).take 4 with hchk
  have hchkmem : ∀ a ∈ chk, a < 256 := fun a ha =>
    mem_shaRun_lt sha256Params _ a (List.mem_of_mem_take ha)
  have hchklen : chk.length = 4 := by
    rw [hchk, List.length_take, length_sha256]; decide
  have hfull : payload ++ chk = toBytesBE 4 V ++ (r ++ chk) := by
    rw [hpayload, List.append_assoc]
  have htw : (payload ++ chk).takeWhile (· == 0) = [] := by
    rw [hfull, hbt, List.cons_append, List.takeWhile_cons, if_neg (by simp_all)]
  have htail : (r ++ chk).length = 78 := by
    rw [List.length_append, hr, hchklen]
  have htailmem : ∀ a ∈ r ++ chk, a < 256 := by
    intro a ha
    rcases List.mem_append.mp ha with h | h
    · exact hm a h
    · exact hchkmem a h
  have hN : natOfBE (payload ++ chk) = V * 256 ^ 78 + natOfBE (r ++ chk) := by
    rw [hfull]
    rw [show natOfBE (toBytesBE 4 V ++ (r ++ chk)) =
      natOfDigits 256 (toBytesBE 4 V ++ (r ++ chk)) from rfl]
    rw [natOfDigits_append, htail]
    rw [show natOfDigits 256 (toBytesBE 4 V) = natOfBE (toBytesBE 4 V) from rfl, hb0]
    rfl
  have hbound : natOfBE (r ++ chk) < 256 ^ 78 := by
    have := natOfDigits_lt_pow 256 (by omega) (r ++ chk) htailmem
    rw [htail] at this
    exact this
  set N := natOfBE (payload ++ chk) with hNdef
  have hD : 0 < 58 ^ 107 := Nat.pos_pow_of_pos _ (by omega)
  have hq : N / 58 ^ 107 = Q := by
    have hlo : V * 256 ^ 78 ≤ N := by omega
    have hhi : N ≤ (V + 1) * 256 ^ 78 - 1 := by
      have h1 : N < (V + 1) * 256 ^ 78 := by
        have : (V + 1) * 256 ^ 78 = V * 256 ^ 78 + 256 ^ 78 := by ring
        omega
      omega
    have h2 := Nat.div_le_div_right (c := 58 ^ 107) hlo
    have h3 := Nat.div_le_div_right (c := 58 ^ 107) hhi
    rw [hqlo] at h2
    rw [hqhi] at h3
    omega
  have hsplit : N = Q * 58 ^ 107 + N % 58 ^ 107 := by
    conv_lhs => rw [← Nat.div_add_mod N (58 ^ 107)]
    rw [hq, Nat.mul_comm]
  have hdig : toDigitsMin 58 N = toDigitsMin 58 Q ++ padDigits 58 107 (N % 58 ^ 107) := by
    conv_lhs => rw [hsplit]
    exact toDigitsMin_decomp 58 (by omega) 107 Q _ hQpos (Nat.mod_lt _ hD)
  rw [htw]
  simp only [List.length_nil, List.replicate_zero, List.nil_append]
  rw [sliceStr_mk, hdig, List.map_append, ← hQchars]
  rw [List.take_left' (by rw [List.length_map, hQlen])]

theorem tpub_prefix (r : List Nat) (hr : r.length = 74) (hm : ∀ a ∈ r, a < 256) :
    sliceStr (bs58checkEncode (toBytesBE 4 versionsTestnetTpub ++ r)) 0 4 = "tpub" :=
  encode_prefix_core versionsTestnetTpub 10111870 "tpub".data r hr hm
    (by decide) ⟨4, [53, 135, 207], by decide, by decide⟩
    (by decide) (by decide) (by decide) (by decide) (by decide)

theorem xpub_prefix (r : List Nat) (hr : r.length = 74) (hm : ∀ a ∈ r, a < 256) :
    sliceStr (bs58checkEncode (toBytesBE 4 versionsMainnetXpub ++ r)) 0 4 = "xpub" :=
  encode_prefix_core versionsMainnetXpub 10892318 "xpub".data r hr hm
    (by decide) ⟨4, [136, 178, 30], by decide, by decide⟩
    (by decide) (by decide) (by decide) (by decide) (by decide)

theorem detectPrefix_eq (key : String) :
    detectPrefix key =
      (if isMainnetPrefix (sliceStr key 0 4) || isTestnetPrefix (sliceStr key 0 4)
        then some (sliceStr key 0 4) else none) := rfl

theorem normalize_of_prefix_xpub (key : String) (h : detectPrefix key = some "xpub") :
    normalizeToNeutralPub key = .ok (key, KeyNet.mainnet) := by
  unfold normalizeToNeutralPub
  rw [h]
  rfl

theorem normalize_of_prefix_tpub (key : String) (h : detectPrefix key = some "tpub") :
    normalizeToNeutralPub key = .ok (key, KeyNet.testnet) := by
  unfold normalizeToNeutralPub
  rw [h]
  rfl

/-- C5: normalization is idempotent — re-normalizing the neutral key returned
by a successful normalization returns it unchanged with the same network. -/
theorem c5_normalize_idempotent (k k' : String) (net : KeyNet)
    (hlen : (bs58checkDecode k).map List.length = some 78)
    (hok : normalizeToNeutralPub k = .ok (k', net)) :
    normalizeToNeutralPub k' = .ok (k', net) := by
  cases hd : bs58checkDecode k with
  | none => rw [hd] at hlen; exact Option.noConfusion hlen
  | some data =>
    rw [hd] at hlen
    simp only [Option.map_some', Option.some_inj] at hlen
    unfold normalizeToNeutralPub at hok
    split at hok
    · rw [exthrow] at hok; exact Except.noConfusion hok
    · rename_i pref heq
      simp only [] at hok
      split at hok
      · rename_i halready
        simp only [expure, Except.ok.injEq, Prod.mk.injEq] at hok
        obtain ⟨hk, hnet⟩ := hok
        subst hk
        rcases halready with ⟨hmn, hp⟩ | ⟨htn, hp⟩
        · subst hp
          rw [normalize_of_prefix_xpub k heq]
          rw [show net = KeyNet.mainnet from by rw [← hnet, hmn]]
        · subst hp
          rw [normalize_of_prefix_tpub k heq]
          rw [show net = KeyNet.testnet from by rw [← hnet, htn]]
      · rename_i halready
        cases hrv : replaceVersion k
          (if prefixNetwork pref = KeyNet.mainnet then versionsMainnetXpub
            else versionsTestnetTpub) with
        | error e =>
          rw [hrv, exbind_error] at hok
          exact Except.noConfusion hok
        | ok kk =>
          rw [hrv, exbind_ok] at hok
          simp only [expure, Except.ok.injEq, Prod.mk.injEq] at hok
          obtain ⟨hkk, hnet⟩ := hok
          obtain ⟨data2, hdata2, hlen2, hkeq⟩ := replaceVersion_ok _ _ _ hrv
          rw [hd] at hdata2
          injection hdata2 with hdd
          subst hdd
          have hdrop74 : (data.drop 4).length = 74 := by
            rw [List.length_drop, hlen]
          have hdropmem : ∀ a ∈ data.drop 4, a < 256 := fun a ha =>
            bs58checkDecode_mem_lt k data hd a (List.drop_subset _ _ ha)
          cases hnetcase : prefixNetwork pref with
          | mainnet =>
            rw [if_pos hnetcase] at hkeq
            have hpfx : sliceStr k' 0 4 = "xpub" := by
              rw [← hkk, hkeq]
              exact xpub_prefix _ hdrop74 hdropmem
            have hdet : detectPrefix k' = some "xpub" := by
              rw [detectPrefix_eq, hpfx]; decide
            rw [normalize_of_prefix_xpub k' hdet]
            rw [show net = KeyNet.mainnet from by rw [← hnet, hnetcase]]
          | testnet =>
            rw [if_neg (by rw [hnetcase]; intro hc; exact KeyNet.noConfusion hc)] at hkeq
            have hpfx : sliceStr k' 0 4 = "tpub" := by
              rw [← hkk, hkeq]
              exact tpub_prefix _ hdrop74 hdropmem
            have hdet : detectPrefix k' = some "tpub" := by
              rw [detectPrefix_eq, hpfx]; decide
            rw [normalize_of_prefix_tpub k' hdet]
            rw [show net = KeyNet.testnet from by rw [← hnet, hnetcase]]

/-! ### The byte comparator is a linear order -/

theorem bytesLe_total : ∀ a b : List Nat, bytesLe a b = true ∨ bytesLe b a = true := by
  intro a
  induction a with
  | nil => intro b; left; rfl
  | cons x as ih =>
    intro b
    cases b with
    | nil => right; rfl
    | cons y bs =>
      by_cases hxy : x < y
      · left; simp [bytesLe, hxy]
      · by_cases hyx : y < x
        · right; simp [bytesLe, hyx, Nat.not_lt.mpr (Nat.le_of_lt hyx), hxy]
        · have hxy' : ¬ x < y := hxy
          rcases ih bs with h | h
          · left; simp [bytesLe, hxy', hyx, h]
          · right; simp [bytesLe, hxy', hyx, h]

theorem bytesLe_trans : ∀ a b c : List Nat,
    bytesLe a b = true → bytesLe b c = true → bytesLe a c = true := by
  intro a
  induction a with
  | nil => intro b c _ _; rfl
  | cons x as ih =>
    intro b c hab hbc
    cases b with
    | nil => simp [bytesLe] at hab
    | cons y bs =>
      cases c with
      | nil => simp [bytesLe] at hbc
      | cons z cs =>
        simp only [bytesLe] at hab hbc ⊢
        split at hab
        · rename_i hxy
          split at hbc
          · rename_i hyz
            rw [if_pos (Nat.lt_trans hxy hyz)]
          · split at hbc
            · exact absurd hbc (by simp)
            · rename_i hzy hyz
              have hyz' : y = z := by omega
              rw [if_pos (hyz' ▸ hxy)]
        · split at hab
          · exact absurd hab (by simp)
          · rename_i hyx hxy
            have hxy' : x = y := by omega
            subst hxy'
            split at hbc
            · rename_i hyz
              rw [if_pos hyz]
            · split at hbc
              · exact absurd hbc (by simp)
              · rename_i hzy hyz
                rw [if_neg hyz, if_neg hzy]
                exact ih bs cs hab hbc

theorem bytesLe_antisymm : ∀ a b : List Nat,
    bytesLe a b = true → bytesLe b a = true → a = b := by
  intro a
  induction a with
  | nil =>
    intro b _ hba
    cases b with
    | nil => rfl
    | cons y bs => simp [bytesLe] at hba
  | cons x as ih =>
    intro b hab hba
    cases b with
    | nil => simp [bytesLe] at hab
    | cons y bs =>
      simp only [bytesLe] at hab hba
      split at hab
      · rename_i hxy
        rw [if_neg (by omega : ¬ y < x), if_pos hxy] at hba
        exact absurd hba (by simp)
      · split at hab
        · exact absurd hab (by simp)
        · rename_i hyx hxy
          have : x = y := by omega
          subst this
          rw [if_neg hxy, if_neg hyx] at hba
          rw [ih bs hab hba]

instance : IsTotal (List Nat) bufLeR := ⟨fun a b => bytesLe_total a b⟩
instance : IsTrans (List Nat) bufLeR := ⟨fun a b c => bytesLe_trans a b c⟩
instance : IsAntisymm (List Nat) bufLeR := ⟨fun a b => bytesLe_antisymm a b⟩

/-! ### `mapME` lemmas -/

theorem mapME_ok_mem {α β : Type} (g : α → Except Err β) :
    ∀ (l : List α) (rs : List β), mapME g l = .ok rs →
      ∀ x ∈ l, ∃ y, g x = .ok y := by
  intro l
  induction l with
  | nil => intro rs _ x hx; exact absurd hx (List.not_mem_nil x)
  | cons a t ih =>
    intro rs h x hx
    unfold mapME at h
    cases hg : g a with
    | error e => rw [hg, exbind_error] at h; exact Except.noConfusion h
    | ok y =>
      rw [hg, exbind_ok] at h
      cases ht : mapME g t with
      | error e => rw [ht, exbind_error] at h; exact Except.noConfusion h
      | ok ys =>
        rcases List.mem_cons.mp hx with hxa | hxt
        · exact ⟨y, hxa ▸ hg⟩
        · exact ih ys ht x hxt

theorem mapME_ok_of_mem {α β : Type} (g : α → Except Err β) :
    ∀ (l : List α), (∀ x ∈ l, ∃ y, g x = .ok y) →
      ∃ rs, mapME g l = .ok rs := by
  intro l
  induction l with
  | nil => intro _; exact ⟨[], rfl⟩
  | cons a t ih =>
    intro h
    obtain ⟨y, hy⟩ := h a (by simp)
    obtain ⟨rs, hrs⟩ := ih (fun x hx => h x (by simp [hx]))
    refine ⟨y :: rs, ?_⟩
    unfold mapME
    rw [hy, exbind_ok, hrs, exbind_ok, expure]

theorem mapME_error_mem {α β : Type} (g : α → Except Err β) :
    ∀ (l : List α) (e : Err), mapME g l = .error e →
      ∃ x ∈ l, g x = .error e := by
  intro l
  induction l with
  | nil => intro e h; exact Except.noConfusion h
  | cons a t ih =>
    intro e h
    unfold mapME at h
    cases hg : g a with
    | error e' =>
      rw [hg, exbind_error] at h
      injection h with he
      exact ⟨a, by simp, he ▸ hg⟩
    | ok y =>
      rw [hg, exbind_ok] at h
      cases ht : mapME g t with
      | error e' =>
        rw [ht, exbind_error] at h
        injection h with he
        obtain ⟨x, hx, hgx⟩ := ih e' ht
        exact ⟨x, by simp [hx], he ▸ hgx⟩
      | ok ys => rw [ht, exbind_ok, expure] at h; exact Except.noConfusion h

theorem mapME_ok_length {α β : Type} (g : α → Except Err β) :
    ∀ (l : List α) (rs : List β), mapME g l = .ok rs → rs.length = l.length := by
  intro l
  induction l with
  | nil =>
    intro rs h
    unfold mapME at h
    rw [expure] at h
    injection h with h
    rw [← h]; rfl
  | cons a t ih =>
    intro rs h
    unfold mapME at h
    cases hg : g a with
    | error e => rw [hg, exbind_error] at h; exact Except.noConfusion h
    | ok y =>
      rw [hg, exbind_ok] at h
      cases ht : mapME g t with
      | error e => rw [ht, exbind_error] at h; exact Except.noConfusion h
      | ok ys =>
        rw [ht, exbind_ok, expure] at h
        injection h with h
        rw [← h, List.length_cons, ih ys ht, List.length_cons]

/-- Permuting the input of a successful `mapME` keeps it successful, with a
permuted output. -/
theorem mapME_ok_perm {α β : Type} (g : α → Except Err β) :
    ∀ {l l' : List α}, l.Perm l' → ∀ {rs : List β}, mapME g l = .ok rs →
      ∃ rs', mapME g l' = .ok rs' ∧ rs.Perm rs' := by
  intro l l' hperm
  induction hperm with
  | nil => intro rs h; exact ⟨rs, h, List.Perm.refl rs⟩
  | @cons a l1 l2 p ih =>
    intro rs h
    unfold mapME at h
    cases hg : g a with
    | error e => rw [hg, exbind_error] at h; exact Except.noConfusion h
    | ok y =>
      rw [hg, exbind_ok] at h
      cases ht : mapME g l1 with
      | error e => rw [ht, exbind_error] at h; exact Except.noConfusion h
      | ok ys =>
        rw [ht, exbind_ok, expure] at h
        injection h with h
        obtain ⟨ys', hys', hp⟩ := ih ht
        refine ⟨y :: ys', ?_, ?_⟩
        · unfold mapME
          rw [hg, exbind_ok, hys', exbind_ok, expure]
        · rw [← h]; exact List.Perm.cons y hp
  | swap x y l =>
    intro rs h
    unfold mapME at h
    cases hgy : g y with
    | error e => rw [hgy, exbind_error] at h; exact Except.noConfusion h
    | ok vy =>
      rw [hgy, exbind_ok] at h
      unfold mapME at h
      cases hgx : g x with
      | error e => rw [hgx, exbind_error, exbind_error] at h; exact Except.noConfusion h
      | ok vx =>
        rw [hgx, exbind_ok] at h
        cases ht : mapME g l with
        | error e =>
          rw [ht, exbind_error, exbind_error] at h
          exact Except.noConfusion h
        | ok vs =>
          rw [ht, exbind_ok, expure, exbind_ok, expure] at h
          injection h with h
          refine ⟨vx :: vy :: vs, ?_, ?_⟩
          · unfold mapME
            rw [hgx, exbind_ok]
            unfold mapME
            rw [hgy, exbind_ok, ht, exbind_ok, expure, exbind_ok, expure]
          · rw [← h]; exact List.Perm.swap vx vy vs
  | trans p q ihp ihq =>
    intro rs h
    obtain ⟨rs1, h1, hp1⟩ := ihp h
    obtain ⟨rs2, h2, hp2⟩ := ihq h1
    exact ⟨rs2, h2, List.Perm.trans hp1 hp2⟩

/-! ### Error-kind classification -/

theorem replaceVersion_error_kind (k : String) (v : Nat) (e : Err)
    (h : replaceVersion k v = .error e) : e = Err.malformedKey := by
  cases hd : bs58checkDecode k with
  | none =>
    rw [replaceVersion_eq_none k v hd] at h
    injection h with h
    exact h.symm
  | some data =>
    rw [replaceVersion_eq_some k v data hd] at h
    split at h
    · injection h with h; exact h.symm
    · exact Except.noConfusion h

theorem normalize_error_kind (k : String) (e : Err)
    (h : normalizeToNeutralPub k = .error e) :
    e = Err.unknownPrefix ∨ e = Err.malformedKey := by
  unfold normalizeToNeutralPub at h
  split at h
  · rw [exthrow] at h; injection h with h; exact Or.inl h.symm
  · rename_i pref heq
    simp only [] at h
    split at h
    · rw [expure] at h; exact Except.noConfusion h
    · cases hrv : replaceVersion k
        (if prefixNetwork pref = KeyNet.mainnet then versionsMainnetXpub
          else versionsTestnetTpub) with
      | error e' =>
        rw [hrv, exbind_error] at h
        injection h with h
        exact Or.inr (h ▸ replaceVersion_error_kind _ _ _ hrv)
      | ok kk =>
        rw [hrv, exbind_ok, expure] at h
        exact Except.noConfusion h

theorem bip32fromBase58_error_kind (s : String) (net : NetworkParams) (e : Err)
    (h : bip32fromBase58 s net = .error e) :
    e = Err.malformedKey ∨ e = Err.invalidNetworkVersion ∨
      e = Err.invalidParentFingerprint ∨ e = Err.invalidChildIndex ∨
      e = Err.invalidPoint := by
  unfold bip32fromBase58 at h
  split at h
  · injection h with h; exact Or.inl h.symm
  · split at h
    · injection h with h; exact Or.inl h.symm
    · split at h
      · injection h with h; exact Or.inr (Or.inl h.symm)
      · split at h
        · injection h with h; exact Or.inr (Or.inr (Or.inl h.symm))
        · split at h
          · injection h with h; exact Or.inr (Or.inr (Or.inr (Or.inl h.symm)))
          · split at h
            · injection h with h; exact Or.inr (Or.inr (Or.inr (Or.inr h.symm)))
            · exact Except.noConfusion h

theorem bip32deriveAux_error_kind (node : Bip32Node) :
    ∀ (f index : Nat) (e : Err), bip32deriveAux node f index = .error e →
      e = Err.missingPrivateKey ∨ e = Err.derivationFailure := by
  intro f
  induction f with
  | zero =>
    intro index e h
    injection h with h
    exact Or.inr h.symm
  | succ f ih =>
    intro index e h
    unfold bip32deriveAux at h
    split at h
    · injection h with h; exact Or.inl h.symm
    · simp only [] at h
      split at h
      · exact ih _ e h
      · split at h
        · exact ih _ e h
        · exact Except.noConfusion h

theorem buildChildKey_error_kind (key : String) (network : NetworkParams)
    (change index : Nat) (e : Err)
    (h : buildChildKey key network change index = .error e) :
    e ≠ Err.invalidThreshold ∧ e ≠ Err.tooManyCosigners ∧ e ≠ Err.mixedNetworks ∧
      e ≠ Err.runtimeTypeError := by
  unfold buildChildKey at h
  split at h
  · rename_i e' hfb
    injection h with h
    subst h
    rcases bip32fromBase58_error_kind _ _ _ hfb with h | h | h | h | h <;>
      (subst h; exact ⟨by simp, by simp, by simp, by simp⟩)
  · split at h
    · rename_i e' hdv
      injection h with h
      subst h
      rcases bip32deriveAux_error_kind _ _ _ _ hdv with h | h <;>
        (subst h; exact ⟨by simp, by simp, by simp, by simp⟩)
    · split at h
      · rename_i e' hdv
        injection h with h
        subst h
        rcases bip32deriveAux_error_kind _ _ _ _ hdv with h | h <;>
          (subst h; exact ⟨by simp, by simp, by simp, by simp⟩)
      · exact Except.noConfusion h

/-! ### Claims about threshold / count validation and malformed keys -/

/-- C10: with an empty cosigner list the threshold validation fails for every
`m` (no integer satisfies `1 ≤ m ≤ 0`), so the unguarded `normalized[0]`
access is never reached: the builder is total on empty input and always
reports `InvalidThreshold`. -/
theorem c10_empty_cosigners_invalid_threshold (m : Int) (change : ChangeChain)
    (index : Nat) (network : Option Net) (strict : Option Bool) :
    buildBip48P2wshAddress
      { m := m, xpubs := [], change := change, index := index,
        network := network, strictBip48 := strict } = .error Err.invalidThreshold := by
  unfold buildBip48P2wshAddress
  rw [if_pos]
  simp only [List.length_nil, Nat.cast_zero]
  omega

/-- Past the two guards, the builder can no longer report a threshold or
cosigner-count error. -/
theorem build_error_after_guards (req : MultisigRequest) (e : Err)
    (hm : ¬(req.m < 1 ∨ req.m > (req.xpubs.length : Int)))
    (hn : ¬(req.xpubs.length > 15))
    (h : buildBip48P2wshAddress req = .error e) :
    e ≠ Err.invalidThreshold ∧ e ≠ Err.tooManyCosigners := by
  unfold buildBip48P2wshAddress at h
  rw [if_neg hm, if_neg hn] at h
  split at h
  · rename_i e' hmm
    injection h with h
    subst h
    obtain ⟨x, _, hx⟩ := mapME_error_mem _ _ _ hmm
    rcases normalize_error_kind x _ hx with h | h <;> (subst h; exact ⟨by simp, by simp⟩)
  · split at h
    · injection h with h
      subst h
      exact ⟨by simp, by simp⟩
    · split at h
      · injection h with h
        subst h
        exact ⟨by simp, by simp⟩
      · simp only [] at h
        split at h
        · rename_i e' hmm
          injection h with h
          subst h
          obtain ⟨x, _, hx⟩ := mapME_error_mem _ _ _ hmm
          have := buildChildKey_error_kind _ _ _ _ _ hx
          exact ⟨this.1, this.2.1⟩
        · exact Except.noConfusion h

/-- C6: threshold and cosigner-count validation.  The threshold check runs
first: an out-of-range `m` reports `InvalidThreshold` even when the list is
oversized; with a valid threshold an oversized list reports
`TooManyCosigners`; and when `1 ≤ m ≤ n ≤ 15` neither validation error can
be reported.  (Non-integral JS `m` values lie outside the `Int` embedding,
where `Number.isInteger` holds identically.) -/
theorem c6_threshold_count_validation (req : MultisigRequest) :
    ((req.m < 1 ∨ req.m > (req.xpubs.length : Int)) →
      buildBip48P2wshAddress req = .error Err.invalidThreshold) ∧
    (¬(req.m < 1 ∨ req.m > (req.xpubs.length : Int)) → req.xpubs.length > 15 →
      buildBip48P2wshAddress req = .error Err.tooManyCosigners) ∧
    (1 ≤ req.m → req.m ≤ (req.xpubs.length : Int) → req.xpubs.length ≤ 15 →
      buildBip48P2wshAddress req ≠ .error Err.invalidThreshold ∧
        buildBip48P2wshAddress req ≠ .error Err.tooManyCosigners) := by
  refine ⟨?_, ?_, ?_⟩
  · intro h
    unfold buildBip48P2wshAddress
    rw [if_pos h]
  · intro h1 h2
    unfold buildBip48P2wshAddress
    rw [if_neg h1, if_pos h2]
  · intro hm1 hm2 hn
    constructor
    · intro hC
      exact (build_error_after_guards req _ (by omega) (by omega) hC).1 rfl
    · intro hC
      exact (build_error_after_guards req _ (by omega) (by omega) hC).2 rfl

/-! ### Malformed cosigner keys (C3) -/

/-- A syntactically invalid extended-key string: the check-encoding does not
decode, or the decoded payload is shorter than the 4-byte version field
(the empty string falls in the first case). -/
def invalidKeyStr (k : String) : Prop :=
  bs58checkDecode k = none ∨ ∃ d, bs58checkDecode k = some d ∧ d.length < 4

/-- On an invalid key, normalization either reports `UnknownPrefix` or
`MalformedKey`, or — when the textual prefix is already neutral — passes the
key through unchanged. -/
theorem normalize_invalid_cases (k : String) (hk : invalidKeyStr k) :
    normalizeToNeutralPub k = .error Err.unknownPrefix ∨
    normalizeToNeutralPub k = .error Err.malformedKey ∨
    ∃ net, normalizeToNeutralPub k = .ok (k, net) := by
  unfold normalizeToNeutralPub
  split
  · left; rfl
  · rename_i pref heq
    simp only []
    split
    · right; right
      exact ⟨prefixNetwork pref, rfl⟩
    · cases hrv : replaceVersion k
        (if prefixNetwork pref = KeyNet.mainnet then versionsMainnetXpub
          else versionsTestnetTpub) with
      | error e =>
        right; left
        have hkind := replaceVersion_error_kind _ _ _ hrv
        subst hkind
        rfl
      | ok kk =>
        exfalso
        obtain ⟨data, hdata, hlen, _⟩ := replaceVersion_ok _ _ _ hrv
        rcases hk with h | ⟨d, hd, hdl⟩
        · rw [h] at hdata; exact Option.noConfusion hdata
        · rw [hd] at hdata
          injection hdata with hh
          subst hh
          omega

/-- On an invalid key the BIP-32 parser reports `MalformedKey`, whatever the
network: the check-decode or the 78-byte length test fails first. -/
theorem bip32fromBase58_invalid (k : String) (netp : NetworkParams)
    (hk : invalidKeyStr k) :
    bip32fromBase58 k netp = .error Err.malformedKey := by
  unfold bip32fromBase58
  rcases hk with h | ⟨d, hd, hdl⟩
  · rw [h]
  · simp only [hd]
    rw [if_pos (by omega)]

/-- C3 (amended): a syntactically invalid or empty key supplied as the sole
cosigner with `m = 1` makes the builder fail with `MalformedKey` or
`UnknownPrefix` — but the `MalformedKey` for a neutral-prefixed invalid key
is raised by the BIP-32 key parser, not by normalization, which passes such
a key through unchanged. -/
theorem c3_invalid_key_fails (k : String) (change : ChangeChain) (index : Nat)
    (network : Option Net) (strict : Option Bool) (hk : invalidKeyStr k) :
    buildBip48P2wshAddress
        { m := 1, xpubs := [k], change := change, index := index,
          network := network, strictBip48 := strict } = .error Err.malformedKey ∨
      buildBip48P2wshAddress
        { m := 1, xpubs := [k], change := change, index := index,
          network := network, strictBip48 := strict } = .error Err.unknownPrefix := by
  unfold buildBip48P2wshAddress
  rw [if_neg (by simp), if_neg (by simp)]
  rcases normalize_invalid_cases k hk with hno | hno | ⟨net, hno⟩
  · right
    have hmm : mapME normalizeToNeutralPub [k] = .error Err.unknownPrefix := by
      unfold mapME
      rw [hno, exbind_error]
    simp only [hmm]
  · left
    have hmm : mapME normalizeToNeutralPub [k] = .error Err.malformedKey := by
      unfold mapME
      rw [hno, exbind_error]
    simp only [hmm]
  · left
    have hmm : mapME normalizeToNeutralPub [k] = .ok [(k, net)] := by
      unfold mapME
      rw [hno, exbind_ok]
      rfl
    have hck : ∀ netp, buildChildKey k netp change.val index = .error Err.malformedKey := by
      intro netp
      unfold buildChildKey
      rw [bip32fromBase58_invalid k netp hk]
    have hcm : ∀ netp, mapME (fun n => buildChildKey n.1 netp change.val index)
        [(k, net)] = .error Err.malformedKey := by
      intro netp
      unfold mapME
      simp only []
      rw [hck netp, exbind_error]
    simp only [hmm, List.head?_cons, List.any_cons, List.any_nil, ne_eq]
    rw [if_neg (by simp)]
    simp only [hcm]

set_option maxRecDepth 100000 in
/-- C3 counterexample: `"tpubnope"` has an invalid check-encoding, yet key
normalization accepts it unchanged (its textual prefix is already neutral)
instead of rejecting it with `MalformedKey`. -/
theorem c3_counterexample_normalization_accepts_invalid :
    bs58checkDecode "tpubnope" = none ∧
      normalizeToNeutralPub "tpubnope" = .ok ("tpubnope", KeyNet.testnet) := by
  constructor
  · decide
  · rfl

/-! ### Order-independence (C1) -/

theorem head?_mem {α : Type} {l : List α} {a : α} (h : l.head? = some a) : a ∈ l := by
  cases l with
  | nil => exact Option.noConfusion h
  | cons x t =>
    rw [List.head?_cons, Option.some_inj] at h
    rw [← h]
    exact List.mem_cons_self x t

/-- Sorting with the byte comparator maps permuted inputs to the same list. -/
theorem insertionSort_eq_of_perm {l l' : List (List Nat)} (h : l.Perm l') :
    l.insertionSort bufLeR = l'.insertionSort bufLeR := by
  apply List.eq_of_perm_of_sorted (r := bufLeR)
  · exact ((List.perm_insertionSort bufLeR l).trans h).trans
      (List.perm_insertionSort bufLeR l').symm
  · exact List.sorted_insertionSort bufLeR l
  · exact List.sorted_insertionSort bufLeR l'

/-- C1: permuting the cosigner list of a successful build keeps it successful
and leaves the address and the witness script unchanged — the derived child
keys are re-sorted canonically before script construction. -/
theorem c1_order_independence (req : MultisigRequest) (xs' : List String)
    (hperm : req.xpubs.Perm xs')
    (hok : (buildBip48P2wshAddress req).isOk = true) :
    ∃ r r', buildBip48P2wshAddress req = .ok r ∧
      buildBip48P2wshAddress { req with xpubs := xs' } = .ok r' ∧
      r'.address = r.address ∧ r'.witnessScriptHex = r.witnessScriptHex := by
  obtain ⟨r, hr⟩ : ∃ r, buildBip48P2wshAddress req = .ok r := by
    cases hb : buildBip48P2wshAddress req with
    | error e => rw [hb] at hok; exact Bool.noConfusion hok
    | ok r => exact ⟨r, rfl⟩
  have hr0 := hr
  refine ⟨r, ?_⟩
  unfold buildBip48P2wshAddress at hr
  split at hr
  · exact Except.noConfusion hr
  · rename_i hg1
    split at hr
    · exact Except.noConfusion hr
    · rename_i hg2
      split at hr
      · exact Except.noConfusion hr
      · rename_i normalized heqN
        split at hr
        · exact Except.noConfusion hr
        · rename_i n0 heqH
          split at hr
          · exact Except.noConfusion hr
          · rename_i hany
            simp only [] at hr
            split at hr
            · exact Except.noConfusion hr
            · rename_i cps heqC
              rw [Except.ok.injEq] at hr
              -- facts about the original run
              have hlen : req.xpubs.length = xs'.length := hperm.length_eq
              have hAll : ∀ n ∈ normalized, n.2 = n0.2 := by
                intro n hn
                by_contra hne
                exact hany (List.any_eq_true.mpr ⟨n, hn, by simpa using hne⟩)
              -- the permuted normalization
              obtain ⟨ns', heqN', hpermN⟩ := mapME_ok_perm _ hperm heqN
              have hlenN : normalized.length = req.xpubs.length :=
                mapME_ok_length _ _ _ heqN
              have hne' : ns' ≠ [] := by
                intro hnil
                have h1 := mapME_ok_length _ _ _ heqN'
                rw [hnil] at h1
                simp only [List.length_nil] at h1
                push_neg at hg1
                omega
              obtain ⟨n0', tl', hns'⟩ := List.exists_cons_of_ne_nil hne'
              have hn0' : n0'.2 = n0.2 := by
                have : n0' ∈ normalized := hpermN.mem_iff.mpr (by rw [hns']; simp)
                exact hAll n0' this
              have hAll' : ∀ n ∈ ns', n.2 = n0'.2 := by
                intro n hn
                rw [hn0']
                exact hAll n (hpermN.mem_iff.mpr hn)
              obtain ⟨cps', heqC', hpermC⟩ := mapME_ok_perm _ hpermN heqC
              have hg1' : ¬(req.m < 1 ∨ req.m > (xs'.length : Int)) := by
                push_neg at hg1 ⊢
                omega
              have hg2' : ¬(xs'.length > 15) := by
                rw [← hlen]
                exact hg2
              unfold buildBip48P2wshAddress
              simp only []
              rw [if_neg hg1', if_neg hg2']
              simp only [heqN', hns', List.head?_cons]
              have hanyneg : ¬(((n0' :: tl').any (fun n => decide (n.2 ≠ n0'.2))) = true) := by
                intro hcon
                obtain ⟨x, hx, hxx⟩ := List.any_eq_true.mp hcon
                exact (of_decide_eq_true hxx) (hAll' x (by rw [hns']; exact hx))
              rw [if_neg hanyneg]
              rw [hn0']
              rw [hns'] at heqC'
              simp only [heqC']
              refine ⟨_, hr0, rfl, ?_, ?_⟩
              · rw [← hr]
                simp only []
                rw [← insertionSort_eq_of_perm hpermC]
              · rw [← hr]
                simp only []
                rw [← insertionSort_eq_of_perm hpermC]

/-! ### Descriptor strings (C7) -/

/-- Modelled from the spec's words: descriptor text format
`wsh(sortedmulti(<m>,<key1><suffix>,<key2><suffix>,...))` over account-level
keys in input order. -/
def specDescriptor (m : Int) (keys : List String) (suffix : String) : String :=
  "wsh(sortedmulti(" ++ intToDec m ++ "," ++
    String.intercalate "," (keys.map (fun k => k ++ suffix)) ++ "))"

/-- C7: on success the two descriptors are exactly the spec's format over the
normalized account-level keys in the caller's input order — the wildcard
`/0/*` suffix in the template and the literal `/<change>/<index>` suffix in
the concrete form. -/
theorem c7_descriptor_format (req : MultisigRequest)
    (hok : (buildBip48P2wshAddress req).isOk = true) :
    ∃ r ns, buildBip48P2wshAddress req = .ok r ∧
      mapME normalizeToNeutralPub req.xpubs = .ok ns ∧
      r.descriptorTemplate = specDescriptor req.m (ns.map Prod.fst) "/0/*" ∧
      r.descriptorConcret = specDescriptor req.m (ns.map Prod.fst)
        ("/" ++ natToDec req.change.val ++ "/" ++ natToDec req.index) := by
  obtain ⟨r, hr⟩ : ∃ r, buildBip48P2wshAddress req = .ok r := by
    cases hb : buildBip48P2wshAddress req with
    | error e => rw [hb] at hok; exact Bool.noConfusion hok
    | ok r => exact ⟨r, rfl⟩
  have hr0 := hr
  unfold buildBip48P2wshAddress at hr
  split at hr
  · exact Except.noConfusion hr
  · split at hr
    · exact Except.noConfusion hr
    · split at hr
      · exact Except.noConfusion hr
      · rename_i normalized heqN
        split at hr
        · exact Except.noConfusion hr
        · rename_i n0 heqH
          split at hr
          · exact Except.noConfusion hr
          · rename_i hany
            simp only [] at hr
            split at hr
            · exact Except.noConfusion hr
            · rename_i cps heqC
              rw [Except.ok.injEq] at hr
              refine ⟨r, normalized, hr0, heqN, ?_, ?_⟩
              · rw [← hr]
                unfold specDescriptor
                rw [List.map_map]
                rfl
              · rw [← hr]
                unfold specDescriptor
                rw [List.map_map]
                have hmap : List.map
                    ((fun k => k ++ ("/" ++ natToDec req.change.val ++ "/" ++
                      natToDec req.index)) ∘ Prod.fst) normalized =
                    List.map (fun n => n.1 ++ "/" ++ natToDec req.change.val ++
                      "/" ++ natToDec req.index) normalized := by
                  apply List.map_congr_left
                  intro n _
                  simp [String.append_assoc]
                rw [hmap]

/-! ### Range derivation (C8) -/

theorem deriveAux_ok (params : DeriveParams) (account : Nat)
    (scriptType : ScriptType) (coinType : CoinType) :
    ∀ (count start : Nat) (rs : List DerivedResult),
      deriveBip48Aux params account scriptType coinType start count = .ok rs →
      rs.length = count ∧
        ∀ i, i < count →
          ∃ res, buildBip48P2wshAddress
              { m := params.m, xpubs := params.xpubs, change := params.change,
                index := start + i, network := params.network,
                strictBip48 := params.strictBip48 } = .ok res ∧
            rs[i]? = some
              { address := res.address, witnessScriptHex := res.witnessScriptHex,
                redeemScriptHex := res.redeemScriptHex,
                descriptorTemplate := res.descriptorTemplate,
                descriptorConcret := res.descriptorConcret,
                index := start + i,
                path := bip48Path coinType account scriptType params.change
                  (start + i) } := by
  intro count
  induction count with
  | zero =>
    intro start rs h
    injection h with h
    constructor
    · rw [← h]; rfl
    · intro i hi; omega
  | succ c ih =>
    intro start rs h
    unfold deriveBip48Aux at h
    split at h
    · exact Except.noConfusion h
    · rename_i res heqB
      split at h
      · exact Except.noConfusion h
      · rename_i rest heqR
        injection h with h
        obtain ⟨hlen, hind⟩ := ih (start + 1) rest heqR
        constructor
        · rw [← h, List.length_cons, hlen]
        · intro i hi
          cases i with
          | zero =>
            refine ⟨res, by rw [Nat.add_zero]; exact heqB, ?_⟩
            rw [← h]
            simp only [List.getElem?_cons_zero, Nat.add_zero]
          | succ j =>
            obtain ⟨res', hres', hget⟩ := hind j (by omega)
            have hadd : start + 1 + j = start + (j + 1) := by omega
            rw [hadd] at hres' hget
            refine ⟨res', hres', ?_⟩
            rw [← h]
            simp only [List.getElem?_cons_succ]
            exact hget

/-- C8: a successful range derivation returns exactly `count` results at
indices `start, start+1, ...`; the `i`-th equals a fresh single-address
build at `start + i` extended with that index and the full BIP-48 path
string. -/
theorem c8_range_derivation (params : DeriveParams)
    (hok : (deriveBip48Addresses params).isOk = true) :
    ∃ rs, deriveBip48Addresses params = .ok rs ∧ rs.length = params.count ∧
      ∀ i, i < params.count →
        ∃ res, buildBip48P2wshAddress
            { m := params.m, xpubs := params.xpubs, change := params.change,
              index := params.start + i, network := params.network,
              strictBip48 := params.strictBip48 } = .ok res ∧
          rs[i]? = some
            { address := res.address, witnessScriptHex := res.witnessScriptHex,
              redeemScriptHex := res.redeemScriptHex,
              descriptorTemplate := res.descriptorTemplate,
              descriptorConcret := res.descriptorConcret,
              index := params.start + i,
              path := bip48Path (params.coinType.getD .Testnet)
                (params.account.getD 0) (params.scriptType.getD .P2WSH)
                params.change (params.start + i) } := by
  obtain ⟨rs, hrs⟩ : ∃ rs, deriveBip48Addresses params = .ok rs := by
    cases hb : deriveBip48Addresses params with
    | error e => rw [hb] at hok; exact Bool.noConfusion hok
    | ok rs => exact ⟨rs, rfl⟩
  obtain ⟨hlen, hind⟩ := deriveAux_ok params (params.account.getD 0)
    (params.scriptType.getD .P2WSH) (params.coinType.getD .Testnet)
    params.count params.start rs hrs
  exact ⟨rs, hrs, hlen, hind⟩

/-! ### Path-only parameters (C9) -/

/-- Everything in a bulk-derivation result except the path string. -/
def derivedCore (r : DerivedResult) : MultisigResult × Nat :=
  ({ address := r.address, witnessScriptHex := r.witnessScriptHex,
     redeemScriptHex := r.redeemScriptHex,
     descriptorTemplate := r.descriptorTemplate,
     descriptorConcret := r.descriptorConcret }, r.index)

theorem deriveAux_core_eq (p1 p2 : DeriveParams)
    (hm : p1.m = p2.m) (hx : p1.xpubs = p2.xpubs) (hc : p1.change = p2.change)
    (hn : p1.network = p2.network) (hs : p1.strictBip48 = p2.strictBip48) :
    ∀ (count start : Nat) (a1 a2 : Nat) (s1 s2 : ScriptType) (c1 c2 : CoinType),
      (deriveBip48Aux p1 a1 s1 c1 start count).map (List.map derivedCore) =
        (deriveBip48Aux p2 a2 s2 c2 start count).map (List.map derivedCore) := by
  intro count
  induction count with
  | zero => intros; rfl
  | succ c ih =>
    intro start a1 a2 s1 s2 c1 c2
    unfold deriveBip48Aux
    have hreq : ({ m := p1.m, xpubs := p1.xpubs, change := p1.change,
                   index := start, network := p1.network,
                   strictBip48 := p1.strictBip48 } : MultisigRequest) =
        { m := p2.m, xpubs := p2.xpubs, change := p2.change, index := start,
          network := p2.network, strictBip48 := p2.strictBip48 } := by
      rw [hm, hx, hc, hn, hs]
    rw [hreq]
    cases hb : buildBip48P2wshAddress
      { m := p2.m, xpubs := p2.xpubs, change := p2.change, index := start,
        network := p2.network, strictBip48 := p2.strictBip48 } with
    | error e => rfl
    | ok res =>
      have hrec := ih (start + 1) a1 a2 s1 s2 c1 c2
      cases h1 : deriveBip48Aux p1 a1 s1 c1 (start + 1) c with
      | error e1 =>
        cases h2 : deriveBip48Aux p2 a2 s2 c2 (start + 1) c with
        | error e2 =>
          rw [h1, h2] at hrec
          simp only [Except.map] at hrec
          injection hrec with he
          rw [he]
        | ok rest2 =>
          rw [h1, h2] at hrec
          simp only [Except.map] at hrec
          exact Except.noConfusion hrec
      | ok rest1 =>
        cases h2 : deriveBip48Aux p2 a2 s2 c2 (start + 1) c with
        | error e2 =>
          rw [h1, h2] at hrec
          simp only [Except.map] at hrec
          exact Except.noConfusion hrec
        | ok rest2 =>
          rw [h1, h2] at hrec
          simp only [Except.map] at hrec
          injection hrec with he
          simp only [Except.map, List.map_cons]
          rw [he]
          rfl

/-- C9: the `account`, `scriptType` and `coinType` parameters influence only
the path string — two bulk derivations differing only in them agree on
every other field of every result (and on errors); in particular
`P2WSH_P2SH` still produces native P2WSH outputs. -/
theorem c9_path_only_params (params : DeriveParams) (a : Option Nat)
    (s : Option ScriptType) (c : Option CoinType) :
    (deriveBip48Addresses
        { params with account := a, scriptType := s, coinType := c }).map
        (List.map derivedCore) =
      (deriveBip48Addresses params).map (List.map derivedCore) := by
  unfold deriveBip48Addresses
  exact deriveAux_core_eq
    { params with account := a, scriptType := s, coinType := c } params
    rfl rfl rfl rfl rfl params.count params.start _ _ _ _ _ _

/-! ### Concrete signet vectors (C2) and claim witnesses

The closed computations over the full pipeline are staged: one lemma per
base58check parse and per BIP-32 public child derivation, plus symbolic
characterization lemmas for `buildChildKey` and `buildBip48P2wshAddress`
that assemble those pieces without re-evaluating them. -/

/-- A SLIP-132 `Vpub` re-encoding (testnet multisig P2WSH version bytes) of
the first test tpub, used to exercise normalization on a non-neutral key. -/
def VPUB : String :=
  "Vpub5n6nwcoe9ZXaaZXhwhAnXToa6yn1VyVqLQ6CQB4tmUJreZwz2wzaZwde7snJ8SMRqfz1cW6oDmRPR1f2c4mKhbQtYPPZhqfYjEYJcUNQ1Ts"

def nodeP0 : Bip32Node :=
  ⟨(0xb2ca8373724ccb79d256fe4d784f575e4c463763e0f428a8eb004b62b7efbc9, 0x665a56b217c5a81f338d64ee9f8b7f9edf68836335f6daeb94b69556ccfe0bb3),
    [0x99, 0x49, 0x56, 0x51, 0x6e, 0xd8, 0x25, 0x1f, 0xea, 0xa1, 0x3a, 0x46, 0xe, 0x80, 0x70, 0x5e, 0xf6, 0xf3, 0x79, 0xd2, 0x60, 0x7f, 0xd4, 0x6c, 0x69, 0x8, 0x9f, 0xed, 0x2, 0xe8, 0x16, 0x2c]⟩
def nodeP1 : Bip32Node :=
  ⟨(0x4af3772da4fed04e0e2b18e7dbe28f3c9f4c799a8ff52ca4e083d504701c6996, 0x230fe1c95fc6fe7b8d86b278129520b804bc75c3bbafac5cc67f96b0e47359a7),
    [0x4f, 0xaa, 0xdb, 0x79, 0x40, 0xf5, 0xdd, 0xa5, 0x6e, 0xb5, 0x13, 0x4f, 0x72, 0x26, 0x8f, 0x47, 0x9d, 0x64, 0xdb, 0x35, 0x36, 0xed, 0x82, 0xb8, 0xde, 0x4c, 0x89, 0x82, 0x83, 0x80, 0xfb, 0x4e]⟩
def nodeP2 : Bip32Node :=
  ⟨(0x28005ca013d33153c62bbc226ae93356403c7fc351d5331cab4200277dfad3b4, 0x9457e16cb12b5f19e8e948f828d386da4eaef93a156ddc73ac708a159531c935),
    [0x84, 0xe7, 0xa5, 0xc0, 0xb8, 0x67, 0xf8, 0x9, 0x83, 0xd7, 0x7d, 0x25, 0x7b, 0x3e, 0xfd, 0xab, 0x51, 0x12, 0x5, 0x82, 0xaf, 0x48, 0x9f, 0x32, 0x6b, 0xc, 0xef, 0x72, 0x26, 0x5e, 0xa9, 0xbf]⟩
def nodeC0 : Bip32Node :=
  ⟨(0x91bb2a0073ea392bde18d6ce07f5a105715f079aaf51186143765ab0ed328e20, 0x7448af1e3e4defa375704f77d47fccd900055c21d4ff61a8f29b34353f8da1b2),
    [0x3e, 0xcb, 0x20, 0x64, 0x8f, 0x8f, 0xbf, 0xb0, 0x3, 0x95, 0x36, 0x24, 0xda, 0xba, 0x9d, 0x6b, 0x82, 0x95, 0x5b, 0x29, 0x10, 0x35, 0xe5, 0x67, 0x74, 0xe7, 0x75, 0x17, 0xc4, 0x35, 0xdd, 0xf5]⟩
def nodeC1 : Bip32Node :=
  ⟨(0x111ebc1419e01e6d09ed8dbf5391060fa786abb5d3c0c8283f3dd352628a0045, 0x1053016251d868224ce6746426e7b70e5ce5bd5fee12d4f8bdf54a6a538cf9de),
    [0x3f, 0xd8, 0x27, 0xda, 0x78, 0x1b, 0x46, 0x6c, 0xd3, 0x13, 0x22, 0x9d, 0xee, 0xf6, 0x1d, 0xe4, 0xb2, 0xf7, 0x25, 0xd2, 0xb7, 0xd1, 0x50, 0x1b, 0xed, 0x6e, 0xfa, 0x9a, 0x9d, 0x8b, 0x34, 0x4d]⟩
def nodeC2 : Bip32Node :=
  ⟨(0xaec1c8154e6e1756b6a3a1d97e6e966d670201301c6df6d4bd26b51e452d7cd5, 0x3bfa5a23d412caf9f9aa06ca767bdfba849224f075957acb6c652eea1a84bdc9),
    [0x91, 0xe0, 0x9c, 0x6b, 0x83, 0xf9, 0x5f, 0x1e, 0x25, 0x2e, 0x7e, 0x39, 0xd5, 0xd0, 0x8e, 0xc5, 0xb7, 0x53, 0x3f, 0xd0, 0x94, 0x7d, 0x85, 0x91, 0xbb, 0x3, 0x8f, 0x58, 0xb1, 0xea, 0x9a, 0x1e]⟩
def nodeL0x0 : Bip32Node :=
  ⟨(0xaca5d4469551a248c35703f8396cd96150c21e4a1561810b4d2fde75122b5450, 0xd515c0ffc498129ae562735e48a860bf8151c5ec36247106903100eeb82326d1),
    [0xbe, 0xfc, 0x84, 0x40, 0x85, 0x9b, 0xab, 0x3a, 0xc5, 0x8c, 0x91, 0x13, 0x14, 0xa5, 0x29, 0x4d, 0x2d, 0x51, 0x6f, 0xec, 0x60, 0x6f, 0x5a, 0x90, 0x52, 0x35, 0x6a, 0x94, 0x1b, 0xf4, 0x3, 0x75]⟩
def nodeL1x0 : Bip32Node :=
  ⟨(0x5a9e74801ecd93623f229dc19e9d295bc86f9148c8504f295ceae8ffc712a8ef, 0xd19f7da987d9354a58ecf85de8faa5c7e264c0d9b97b6d58ec243fca3d2d7151),
    [0xd7, 0xb6, 0x23, 0x7b, 0xa0, 0xb0, 0x31, 0x7c, 0x8a, 0xc4, 0x1c, 0x64, 0x65, 0x35, 0xb1, 0xd8, 0x7b, 0x1d, 0x6a, 0x7, 0xd, 0xa2, 0x8f, 0x12, 0x6c, 0x2d, 0x7a, 0x7a, 0xf3, 0x0, 0x8e, 0xf4]⟩
def nodeL2x0 : Bip32Node :=
  ⟨(0x8b1f8ada790c1ce051178d6ea5fd523fa8a1201883f9e606cccfd0e9065730fb, 0x57694911c0b8c4d18e997bc217e1bccf02921eb9d789a7e723aa9e01b37a86c4),
    [0x96, 0x52, 0x1b, 0x96, 0xb2, 0xd7, 0x36, 0xef, 0x79, 0x16, 0xd4, 0x2f, 0xd0, 0x93, 0x75, 0xc9, 0x58, 0x8b, 0xc3, 0x10, 0x3a, 0xc4, 0x38, 0xaf, 0xd1, 0x3c, 0x66, 0x49, 0x79, 0xb8, 0xe6, 0xfb]⟩
def nodeL0x1 : Bip32Node :=
  ⟨(0xb6a13b8be750bdd2d6b94a858ad7c333225c84d287e8029d13e88869d351b508, 0xbad5c806fc7298c0bce8570b7c531a00ebba0b5cf2ee6478875182786e5abec2),
    [0x9a, 0xdd, 0x56, 0x2, 0x65, 0xb, 0x84, 0x66, 0x0, 0x4b, 0xb9, 0x8f, 0x72, 0x87, 0x29, 0x4b, 0x8, 0xfd, 0x27, 0x58, 0x70, 0xf6, 0x5c, 0x23, 0x89, 0x39, 0x23, 0x5f, 0xe6, 0xed, 0xd7, 0xc1]⟩
def nodeL1x1 : Bip32Node :=
  ⟨(0xfa88ddcbe90b71649961db9a7f58777808d1cfe8922a8d93ab691af775ed937f, 0x66f37d353a739301e9e832e2aaa8edfbc2caf8f745cd25a0c9cba3510a498565),
    [0x18, 0x2f, 0x77, 0xa6, 0x3c, 0xb8, 0xbf, 0x31, 0x9b, 0x3, 0x98, 0xa5, 0x3e, 0xd5, 0x71, 0x1d, 0x4b, 0xe4, 0xc6, 0x2b, 0x76, 0x65, 0xc7, 0x9a, 0x2f, 0xb8, 0xbf, 0x11, 0x9, 0xd1, 0x9d, 0xbc]⟩
def nodeL2x1 : Bip32Node :=
  ⟨(0xb703984c0b275a2351f82cc10dc2c40d7febf66fc9e54307bc3db673f9b764f1, 0xe58a1338937d6d956b480ec5cec41f59659775b89154201a6af60d9fae6cebc4),
    [0x40, 0xeb, 0xc0, 0xa5, 0xeb, 0xa9, 0x8d, 0x8e, 0x80, 0x19, 0xf4, 0xb0, 0x64, 0xb9, 0x9a, 0x4c, 0xd6, 0x40, 0x10, 0xf, 0xf9, 0x83, 0xc6, 0x1a, 0xfe, 0xc1, 0xd7, 0xa8, 0xb8, 0x2d, 0x1a, 0x4d]⟩
def nodeL0x5 : Bip32Node :=
  ⟨(0x821125ec93da3d6971652c85a37e5085be20d229e4c1ed846ba7c1a8dbc93b61, 0x39cfa5f5316caaeec9bc556d6a90cc9dc5741d8604c2ecb3726bf773bb859d68),
    [0x6f, 0x75, 0xb7, 0x81, 0x24, 0xa4, 0x7d, 0x1c, 0x4c, 0xb2, 0xcc, 0xd6, 0xea, 0x1e, 0x8f, 0xc9, 0x86, 0xa0, 0xe2, 0x4f, 0x93, 0x62, 0xaf, 0x9, 0xb9, 0xff, 0xde, 0x58, 0x69, 0xa2, 0xee, 0xa3]⟩
def nodeL0x3 : Bip32Node :=
  ⟨(0x7c017bfa6009fb66a86a6d394541c2ecff3701bb1a40872b6adaccf7438febfa, 0xa0547a5d5cfe2bd2694e4c034b00d5a6f3e3672b0984a7a19f00185934c749f8),
    [0xe6, 0x20, 0x21, 0x1d, 0xab, 0xfd, 0x85, 0x86, 0x44, 0x0, 0xc8, 0x2b, 0x8f, 0x78, 0xba, 0x26, 0xc4, 0x6c, 0x17, 0x48, 0x97, 0xfd, 0xf6, 0xa3, 0x57, 0xf3, 0xfb, 0xd1, 0x82, 0xfc, 0x1e, 0x19]⟩

def childK0x0 : List Nat :=
  [0x3, 0xac, 0xa5, 0xd4, 0x46, 0x95, 0x51, 0xa2, 0x48, 0xc3, 0x57, 0x3, 0xf8, 0x39, 0x6c, 0xd9, 0x61, 0x50, 0xc2, 0x1e, 0x4a, 0x15, 0x61, 0x81, 0xb, 0x4d, 0x2f, 0xde, 0x75, 0x12, 0x2b, 0x54, 0x50]
def childK1x0 : List Nat :=
  [0x3, 0x5a, 0x9e, 0x74, 0x80, 0x1e, 0xcd, 0x93, 0x62, 0x3f, 0x22, 0x9d, 0xc1, 0x9e, 0x9d, 0x29, 0x5b, 0xc8, 0x6f, 0x91, 0x48, 0xc8, 0x50, 0x4f, 0x29, 0x5c, 0xea, 0xe8, 0xff, 0xc7, 0x12, 0xa8, 0xef]
def childK2x0 : List Nat :=
  [0x2, 0x8b, 0x1f, 0x8a, 0xda, 0x79, 0xc, 0x1c, 0xe0, 0x51, 0x17, 0x8d, 0x6e, 0xa5, 0xfd, 0x52, 0x3f, 0xa8, 0xa1, 0x20, 0x18, 0x83, 0xf9, 0xe6, 0x6, 0xcc, 0xcf, 0xd0, 0xe9, 0x6, 0x57, 0x30, 0xfb]
def childK0x1 : List Nat :=
  [0x2, 0xb6, 0xa1, 0x3b, 0x8b, 0xe7, 0x50, 0xbd, 0xd2, 0xd6, 0xb9, 0x4a, 0x85, 0x8a, 0xd7, 0xc3, 0x33, 0x22, 0x5c, 0x84, 0xd2, 0x87, 0xe8, 0x2, 0x9d, 0x13, 0xe8, 0x88, 0x69, 0xd3, 0x51, 0xb5, 0x8]
def childK1x1 : List Nat :=
  [0x3, 0xfa, 0x88, 0xdd, 0xcb, 0xe9, 0xb, 0x71, 0x64, 0x99, 0x61, 0xdb, 0x9a, 0x7f, 0x58, 0x77, 0x78, 0x8, 0xd1, 0xcf, 0xe8, 0x92, 0x2a, 0x8d, 0x93, 0xab, 0x69, 0x1a, 0xf7, 0x75, 0xed, 0x93, 0x7f]
def childK2x1 : List Nat :=
  [0x2, 0xb7, 0x3, 0x98, 0x4c, 0xb, 0x27, 0x5a, 0x23, 0x51, 0xf8, 0x2c, 0xc1, 0xd, 0xc2, 0xc4, 0xd, 0x7f, 0xeb, 0xf6, 0x6f, 0xc9, 0xe5, 0x43, 0x7, 0xbc, 0x3d, 0xb6, 0x73, 0xf9, 0xb7, 0x64, 0xf1]
def childK0x5 : List Nat :=
  [0x2, 0x82, 0x11, 0x25, 0xec, 0x93, 0xda, 0x3d, 0x69, 0x71, 0x65, 0x2c, 0x85, 0xa3, 0x7e, 0x50, 0x85, 0xbe, 0x20, 0xd2, 0x29, 0xe4, 0xc1, 0xed, 0x84, 0x6b, 0xa7, 0xc1, 0xa8, 0xdb, 0xc9, 0x3b, 0x61]
def childK0x3 : List Nat :=
  [0x2, 0x7c, 0x1, 0x7b, 0xfa, 0x60, 0x9, 0xfb, 0x66, 0xa8, 0x6a, 0x6d, 0x39, 0x45, 0x41, 0xc2, 0xec, 0xff, 0x37, 0x1, 0xbb, 0x1a, 0x40, 0x87, 0x2b, 0x6a, 0xda, 0xcc, 0xf7, 0x43, 0x8f, 0xeb, 0xfa]

def resultC2x0 : MultisigResult :=
  { address := "tb1qyytc8lvrzvq70k0fkftx6p9gnmyl3dcanc2j9r90t3s3tk6rxx0sx3fhvw"
    witnessScriptHex := "5221028b1f8ada790c1ce051178d6ea5fd523fa8a1201883f9e606cccfd0e9065730fb21035a9e74801ecd93623f229dc19e9d295bc86f9148c8504f295ceae8ffc712a8ef2103aca5d4469551a248c35703f8396cd96150c21e4a1561810b4d2fde75122b545053ae"
    redeemScriptHex := none
    descriptorTemplate := "wsh(sortedmulti(2,tpubDFErwxEibF1d8NwR7wG9KUz94F8JAFJJPz5GQFeGVcz6ssgEr5nWsPkpbcpn6KPcDPgYrSofnya2kbm196He327iWCRK9nVkxuz8ZjT9cXG/0/*,tpubDF6CqZd1yujcP79jyEvuC4f5rMNByCqgomZhtfgV6LprZGoxxmzH5LuDPvybL8rzCzJpXynsSARzmN9SoYdLKpLq5ZGwED6vE4mXpLS6gDH/0/*,tpubDFhQCkPCwwcaMPrmzrbqM4SKcea9Uj1sXnpx3Q9ezZhsxn9cP8Csbt1cw39yA3YmqFNU2UNMXUaWD1vmU5f5TdvB2ZMW3hvTYqjKLmtVztt/0/*))"
    descriptorConcret := "wsh(sortedmulti(2,tpubDFErwxEibF1d8NwR7wG9KUz94F8JAFJJPz5GQFeGVcz6ssgEr5nWsPkpbcpn6KPcDPgYrSofnya2kbm196He327iWCRK9nVkxuz8ZjT9cXG/0/0,tpubDF6CqZd1yujcP79jyEvuC4f5rMNByCqgomZhtfgV6LprZGoxxmzH5LuDPvybL8rzCzJpXynsSARzmN9SoYdLKpLq5ZGwED6vE4mXpLS6gDH/0/0,tpubDFhQCkPCwwcaMPrmzrbqM4SKcea9Uj1sXnpx3Q9ezZhsxn9cP8Csbt1cw39yA3YmqFNU2UNMXUaWD1vmU5f5TdvB2ZMW3hvTYqjKLmtVztt/0/0))" }
def resultC2x1 : MultisigResult :=
  { address := "tb1qhtfz0678rc45y4weujeutn9autlhmldrjsj536y3a3wr4zagh8nq5d4vxe"
    witnessScriptHex := "522102b6a13b8be750bdd2d6b94a858ad7c333225c84d287e8029d13e88869d351b5082102b703984c0b275a2351f82cc10dc2c40d7febf66fc9e54307bc3db673f9b764f12103fa88ddcbe90b71649961db9a7f58777808d1cfe8922a8d93ab691af775ed937f53ae"
    redeemScriptHex := none
    descriptorTemplate := "wsh(sortedmulti(2,tpubDFErwxEibF1d8NwR7wG9KUz94F8JAFJJPz5GQFeGVcz6ssgEr5nWsPkpbcpn6KPcDPgYrSofnya2kbm196He327iWCRK9nVkxuz8ZjT9cXG/0/*,tpubDF6CqZd1yujcP79jyEvuC4f5rMNByCqgomZhtfgV6LprZGoxxmzH5LuDPvybL8rzCzJpXynsSARzmN9SoYdLKpLq5ZGwED6vE4mXpLS6gDH/0/*,tpubDFhQCkPCwwcaMPrmzrbqM4SKcea9Uj1sXnpx3Q9ezZhsxn9cP8Csbt1cw39yA3YmqFNU2UNMXUaWD1vmU5f5TdvB2ZMW3hvTYqjKLmtVztt/0/*))"
    descriptorConcret := "wsh(sortedmulti(2,tpubDFErwxEibF1d8NwR7wG9KUz94F8JAFJJPz5GQFeGVcz6ssgEr5nWsPkpbcpn6KPcDPgYrSofnya2kbm196He327iWCRK9nVkxuz8ZjT9cXG/0/1,tpubDF6CqZd1yujcP79jyEvuC4f5rMNByCqgomZhtfgV6LprZGoxxmzH5LuDPvybL8rzCzJpXynsSARzmN9SoYdLKpLq5ZGwED6vE4mXpLS6gDH/0/1,tpubDFhQCkPCwwcaMPrmzrbqM4SKcea9Uj1sXnpx3Q9ezZhsxn9cP8Csbt1cw39yA3YmqFNU2UNMXUaWD1vmU5f5TdvB2ZMW3hvTYqjKLmtVztt/0/1))" }

theorem mapME_cons {α β : Type} {g : α → Except Err β} {x : α} {t : List α}
    {y : β} {r : List β} (hx : g x = .ok y) (ht : mapME g t = .ok r) :
    mapME g (x :: t) = .ok (y :: r) := by
  unfold mapME
  rw [hx, exbind_ok, ht, exbind_ok, expure]

theorem buildChildKey_ok_of (key : String) (network : NetworkParams)
    (change index : Nat) (n1 n2 n3 : Bip32Node)
    (h1 : bip32fromBase58 key network = .ok n1)
    (h2 : bip32derive n1 change = .ok n2)
    (h3 : bip32derive n2 index = .ok n3) :
    buildChildKey key network change index = .ok (compressPoint n3.point) := by
  unfold buildChildKey
  rw [h1]
  simp only []
  rw [h2]
  simp only []
  rw [h3]

theorem build_ok_of (req : MultisigRequest) (normalized : List (String × KeyNet))
    (n0 : String × KeyNet) (childPubkeys : List (List Nat))
    (h1 : ¬(req.m < 1 ∨ req.m > (req.xpubs.length : Int)))
    (h2 : ¬(req.xpubs.length > 15))
    (h3 : mapME normalizeToNeutralPub req.xpubs = .ok normalized)
    (h4 : normalized.head? = some n0)
    (h5 : normalized.any (fun n => n.2 ≠ n0.2) = false)
    (h6 : mapME (fun n => buildChildKey n.1 (netParams (req.network.getD n0.2.toNet))
        req.change.val req.index) normalized = .ok childPubkeys) :
    buildBip48P2wshAddress req = .ok
      { address := p2wshAddress (netParams (req.network.getD n0.2.toNet))
          (p2msOutput req.m.toNat (childPubkeys.insertionSort bufLeR))
        witnessScriptHex := bytesToHex
          (p2msOutput req.m.toNat (childPubkeys.insertionSort bufLeR))
        redeemScriptHex := none
        descriptorTemplate := "wsh(sortedmulti(" ++ intToDec req.m ++ "," ++
          String.intercalate "," (normalized.map (fun n => n.1 ++ "/0/*")) ++ "))"
        descriptorConcret := "wsh(sortedmulti(" ++ intToDec req.m ++ "," ++
          String.intercalate "," (normalized.map (fun n => n.1 ++ "/" ++
            natToDec req.change.val ++ "/" ++ natToDec req.index)) ++ "))" } := by
  unfold buildBip48P2wshAddress
  rw [if_neg h1, if_neg h2]
  split
  · rename_i e heq
    rw [h3] at heq
    exact Except.noConfusion heq
  · rename_i normalized' heq
    rw [h3] at heq
    injection heq with heq
    subst heq
    split
    · rename_i heq2
      rw [h4] at heq2
      exact Option.noConfusion heq2
    · rename_i n0' heq2
      rw [h4] at heq2
      injection heq2 with heq2
      subst heq2
      have hne : ¬(normalized.any (fun n => n.2 ≠ n0.2) = true) := by
        rw [h5]; exact Bool.false_ne_true
      rw [if_neg hne]
      dsimp only []
      split
      · rename_i e heq3
        rw [h6] at heq3
        exact Except.noConfusion heq3
      · rename_i childPubkeys' heq3
        rw [h6] at heq3
        injection heq3 with heq3
        subst heq3
        rfl

set_option maxRecDepth 400000 in
set_option maxHeartbeats 2000000 in
theorem parseTpub0 : bip32fromBase58 TPUB0 signetNetwork = .ok nodeP0 := rfl

set_option maxRecDepth 400000 in
set_option maxHeartbeats 2000000 in
theorem parseTpub1 : bip32fromBase58 TPUB1 signetNetwork = .ok nodeP1 := rfl

set_option maxRecDepth 400000 in
set_option maxHeartbeats 2000000 in
theorem parseTpub2 : bip32fromBase58 TPUB2 signetNetwork = .ok nodeP2 := rfl

set_option maxRecDepth 400000 in
set_option maxHeartbeats 2000000 in
theorem ckdChg0 : bip32derive nodeP0 0 = .ok nodeC0 := rfl

set_option maxRecDepth 400000 in
set_option maxHeartbeats 2000000 in
theorem ckdChg1 : bip32derive nodeP1 0 = .ok nodeC1 := rfl

set_option maxRecDepth 400000 in
set_option maxHeartbeats 2000000 in
theorem ckdChg2 : bip32derive nodeP2 0 = .ok nodeC2 := rfl

set_option maxRecDepth 400000 in
set_option maxHeartbeats 2000000 in
theorem ckdLeaf0x0 : bip32derive nodeC0 0 = .ok nodeL0x0 := rfl

set_option maxRecDepth 400000 in
set_option maxHeartbeats 2000000 in
theorem ckdLeaf1x0 : bip32derive nodeC1 0 = .ok nodeL1x0 := rfl

set_option maxRecDepth 400000 in
set_option maxHeartbeats 2000000 in
theorem ckdLeaf2x0 : bip32derive nodeC2 0 = .ok nodeL2x0 := rfl

set_option maxRecDepth 400000 in
set_option maxHeartbeats 2000000 in
theorem ckdLeaf0x1 : bip32derive nodeC0 1 = .ok nodeL0x1 := rfl

set_option maxRecDepth 400000 in
set_option maxHeartbeats 2000000 in
theorem ckdLeaf1x1 : bip32derive nodeC1 1 = .ok nodeL1x1 := rfl

set_option maxRecDepth 400000 in
set_option maxHeartbeats 2000000 in
theorem ckdLeaf2x1 : bip32derive nodeC2 1 = .ok nodeL2x1 := rfl

set_option maxRecDepth 400000 in
set_option maxHeartbeats 2000000 in
theorem ckdLeaf0x5 : bip32derive nodeC0 5 = .ok nodeL0x5 := rfl

set_option maxRecDepth 400000 in
set_option maxHeartbeats 2000000 in
theorem ckdLeaf0x3 : bip32derive nodeC0 3 = .ok nodeL0x3 := rfl

set_option maxHeartbeats 1000000 in
theorem childT0x0 : buildChildKey TPUB0 signetNetwork 0 0 = .ok childK0x0 := by
  rw [buildChildKey_ok_of TPUB0 signetNetwork 0 0 nodeP0 nodeC0 nodeL0x0
    parseTpub0 ckdChg0 ckdLeaf0x0]
  rfl

set_option maxHeartbeats 1000000 in
theorem childT1x0 : buildChildKey TPUB1 signetNetwork 0 0 = .ok childK1x0 := by
  rw [buildChildKey_ok_of TPUB1 signetNetwork 0 0 nodeP1 nodeC1 nodeL1x0
    parseTpub1 ckdChg1 ckdLeaf1x0]
  rfl

set_option maxHeartbeats 1000000 in
theorem childT2x0 : buildChildKey TPUB2 signetNetwork 0 0 = .ok childK2x0 := by
  rw [buildChildKey_ok_of TPUB2 signetNetwork 0 0 nodeP2 nodeC2 nodeL2x0
    parseTpub2 ckdChg2 ckdLeaf2x0]
  rfl

set_option maxHeartbeats 1000000 in
theorem childT0x1 : buildChildKey TPUB0 signetNetwork 0 1 = .ok childK0x1 := by
  rw [buildChildKey_ok_of TPUB0 signetNetwork 0 1 nodeP0 nodeC0 nodeL0x1
    parseTpub0 ckdChg0 ckdLeaf0x1]
  rfl

set_option maxHeartbeats 1000000 in
theorem childT1x1 : buildChildKey TPUB1 signetNetwork 0 1 = .ok childK1x1 := by
  rw [buildChildKey_ok_of TPUB1 signetNetwork 0 1 nodeP1 nodeC1 nodeL1x1
    parseTpub1 ckdChg1 ckdLeaf1x1]
  rfl

set_option maxHeartbeats 1000000 in
theorem childT2x1 : buildChildKey TPUB2 signetNetwork 0 1 = .ok childK2x1 := by
  rw [buildChildKey_ok_of TPUB2 signetNetwork 0 1 nodeP2 nodeC2 nodeL2x1
    parseTpub2 ckdChg2 ckdLeaf2x1]
  rfl

set_option maxHeartbeats 1000000 in
theorem childT0x5 : buildChildKey TPUB0 signetNetwork 0 5 = .ok childK0x5 := by
  rw [buildChildKey_ok_of TPUB0 signetNetwork 0 5 nodeP0 nodeC0 nodeL0x5
    parseTpub0 ckdChg0 ckdLeaf0x5]
  rfl

set_option maxHeartbeats 1000000 in
theorem childT0x3 : buildChildKey TPUB0 signetNetwork 0 3 = .ok childK0x3 := by
  rw [buildChildKey_ok_of TPUB0 signetNetwork 0 3 nodeP0 nodeC0 nodeL0x3
    parseTpub0 ckdChg0 ckdLeaf0x3]
  rfl

theorem normTPUBS : mapME normalizeToNeutralPub TPUBS =
    .ok [(TPUB0, KeyNet.testnet), (TPUB1, KeyNet.testnet),
      (TPUB2, KeyNet.testnet)] := rfl

theorem normT01 : mapME normalizeToNeutralPub [TPUB0, TPUB1] =
    .ok [(TPUB0, KeyNet.testnet), (TPUB1, KeyNet.testnet)] := rfl

theorem normT0 : mapME normalizeToNeutralPub [TPUB0] =
    .ok [(TPUB0, KeyNet.testnet)] := rfl

set_option maxRecDepth 400000 in
set_option maxHeartbeats 2000000 in
theorem buildSignet0 : buildBip48P2wshAddress
    { m := 2, xpubs := TPUBS, change := .External, index := 0,
      network := some .signet, strictBip48 := none } = .ok resultC2x0 := by
  rw [build_ok_of
    { m := 2, xpubs := TPUBS, change := .External, index := 0,
      network := some .signet, strictBip48 := none }
    [(TPUB0, KeyNet.testnet), (TPUB1, KeyNet.testnet), (TPUB2, KeyNet.testnet)] (TPUB0, KeyNet.testnet) [childK0x0, childK1x0, childK2x0]
    (by decide) (by decide) normTPUBS (by rfl) (by rfl)
    (mapME_cons childT0x0 (mapME_cons childT1x0 (mapME_cons childT2x0 rfl)))]
  rfl

set_option maxRecDepth 400000 in
set_option maxHeartbeats 2000000 in
theorem buildSignet1 : buildBip48P2wshAddress
    { m := 2, xpubs := TPUBS, change := .External, index := 1,
      network := some .signet, strictBip48 := none } = .ok resultC2x1 := by
  rw [build_ok_of
    { m := 2, xpubs := TPUBS, change := .External, index := 1,
      network := some .signet, strictBip48 := none }
    [(TPUB0, KeyNet.testnet), (TPUB1, KeyNet.testnet), (TPUB2, KeyNet.testnet)] (TPUB0, KeyNet.testnet) [childK0x1, childK1x1, childK2x1]
    (by decide) (by decide) normTPUBS (by rfl) (by rfl)
    (mapME_cons childT0x1 (mapME_cons childT1x1 (mapME_cons childT2x1 rfl)))]
  rfl

set_option maxRecDepth 400000 in
set_option maxHeartbeats 2000000 in
theorem buildTwoKeysOk : (buildBip48P2wshAddress
    { m := 2, xpubs := [TPUB0, TPUB1], change := .External, index := 0,
      network := some .signet, strictBip48 := none }).isOk = true := by
  rw [build_ok_of
    { m := 2, xpubs := [TPUB0, TPUB1], change := .External, index := 0,
      network := some .signet, strictBip48 := none }
    [(TPUB0, KeyNet.testnet), (TPUB1, KeyNet.testnet)] (TPUB0, KeyNet.testnet) [childK0x0, childK1x0]
    (by decide) (by decide) normT01 (by rfl) (by rfl)
    (mapME_cons childT0x0 (mapME_cons childT1x0 rfl))]
  rfl

set_option maxRecDepth 400000 in
set_option maxHeartbeats 2000000 in
theorem buildOneKey5Ok : (buildBip48P2wshAddress
    { m := 1, xpubs := [TPUB0], change := .External, index := 5,
      network := some .signet, strictBip48 := none }).isOk = true := by
  rw [build_ok_of
    { m := 1, xpubs := [TPUB0], change := .External, index := 5,
      network := some .signet, strictBip48 := none }
    [(TPUB0, KeyNet.testnet)] (TPUB0, KeyNet.testnet) [childK0x5]
    (by decide) (by decide) normT0 (by rfl) (by rfl)
    (mapME_cons childT0x5 rfl)]
  rfl

set_option maxRecDepth 400000 in
set_option maxHeartbeats 2000000 in
theorem buildOneKey3Ok : (buildBip48P2wshAddress
    { m := 1, xpubs := [TPUB0], change := .External, index := 3,
      network := some .signet, strictBip48 := none }).isOk = true := by
  rw [build_ok_of
    { m := 1, xpubs := [TPUB0], change := .External, index := 3,
      network := some .signet, strictBip48 := none }
    [(TPUB0, KeyNet.testnet)] (TPUB0, KeyNet.testnet) [childK0x3]
    (by decide) (by decide) normT0 (by rfl) (by rfl)
    (mapME_cons childT0x3 rfl)]
  rfl

theorem deriveAux_isOk_one (params : DeriveParams) (a : Nat) (s : ScriptType)
    (c : CoinType) (idx : Nat) (r : MultisigResult)
    (hb : buildBip48P2wshAddress
      { m := params.m, xpubs := params.xpubs, change := params.change,
        index := idx, network := params.network,
        strictBip48 := params.strictBip48 } = .ok r) :
    (deriveBip48Aux params a s c idx 1).isOk = true := by
  unfold deriveBip48Aux
  simp only [hb]
  rfl

set_option maxHeartbeats 1000000 in
theorem deriveOneOk : (deriveBip48Addresses
    { m := 1, xpubs := [TPUB0], change := .External, start := 3, count := 1,
      account := none, scriptType := none, coinType := none,
      network := some .signet, strictBip48 := none }).isOk = true := by
  obtain ⟨r, hb⟩ : ∃ r, buildBip48P2wshAddress
      { m := 1, xpubs := [TPUB0], change := .External, index := 3,
        network := some .signet, strictBip48 := none } = .ok r := by
    have h := buildOneKey3Ok
    cases hbb : buildBip48P2wshAddress
        { m := 1, xpubs := [TPUB0], change := .External, index := 3,
          network := some .signet, strictBip48 := none } with
    | error e => rw [hbb] at h; exact Bool.noConfusion h
    | ok r => exact ⟨r, rfl⟩
  unfold deriveBip48Addresses
  simp only [Option.getD]
  exact deriveAux_isOk_one _ 0 .P2WSH .Testnet 3 r hb

/-- C2: the three testnet-family account keys of the spec's concrete
scenario, with `m = 2`, external change, forced signet network, produce at
index 0 the expected `tb1q...x3fhvw` address with witness script beginning
`5221028b1f8ada79`, and at index 1 the expected `tb1q...5d4vxe` address. -/
theorem c2_concrete_signet_vectors :
    ((buildBip48P2wshAddress
        { m := 2, xpubs := TPUBS, change := .External, index := 0,
          network := some .signet, strictBip48 := none }).map
      (fun r => (r.address, sliceStr r.witnessScriptHex 0 16)) =
      .ok ("tb1qyytc8lvrzvq70k0fkftx6p9gnmyl3dcanc2j9r90t3s3tk6rxx0sx3fhvw",
        "5221028b1f8ada79")) ∧
    ((buildBip48P2wshAddress
        { m := 2, xpubs := TPUBS, change := .External, index := 1,
          network := some .signet, strictBip48 := none }).map
      (fun r => r.address) =
      .ok "tb1qhtfz0678rc45y4weujeutn9autlhmldrjsj536y3a3wr4zagh8nq5d4vxe") :=
  ⟨by rw [buildSignet0]; rfl, by rw [buildSignet1]; rfl⟩

theorem c1_order_independence_witness :
    ∃ r r', buildBip48P2wshAddress
        { m := 2, xpubs := [TPUB0, TPUB1], change := .External, index := 0,
          network := some .signet, strictBip48 := none } = .ok r ∧
      buildBip48P2wshAddress
        { ({ m := 2, xpubs := [TPUB0, TPUB1], change := .External, index := 0,
             network := some .signet, strictBip48 := none } : MultisigRequest)
          with xpubs := [TPUB1, TPUB0] } = .ok r' ∧
      r'.address = r.address ∧ r'.witnessScriptHex = r.witnessScriptHex :=
  c1_order_independence
    { m := 2, xpubs := [TPUB0, TPUB1], change := .External, index := 0,
      network := some .signet, strictBip48 := none }
    [TPUB1, TPUB0] (by decide) buildTwoKeysOk

theorem c3_invalid_key_fails_witness :
    buildBip48P2wshAddress
        { m := 1, xpubs := [""], change := .External, index := 0,
          network := some .signet, strictBip48 := none } = .error Err.malformedKey ∨
      buildBip48P2wshAddress
        { m := 1, xpubs := [""], change := .External, index := 0,
          network := some .signet, strictBip48 := none } = .error Err.unknownPrefix :=
  c3_invalid_key_fails "" .External 0 (some .signet) none (Or.inl (by decide))

set_option maxRecDepth 1000000 in
set_option maxHeartbeats 4000000 in
theorem c4_normalize_preserves_fields_witness :
    ∃ data data', bs58checkDecode VPUB = some data ∧
      bs58checkDecode TPUB0 = some data' ∧
      data'.drop 4 = data.drop 4 :=
  c4_normalize_preserves_fields VPUB TPUB0 KeyNet.testnet (by rfl) (by rfl)

set_option maxRecDepth 1000000 in
set_option maxHeartbeats 4000000 in
theorem c5_normalize_idempotent_witness :
    normalizeToNeutralPub TPUB0 = .ok (TPUB0, KeyNet.testnet) :=
  c5_normalize_idempotent VPUB TPUB0 KeyNet.testnet (by rfl) (by rfl)

theorem c6_threshold_count_validation_witness :
    (buildBip48P2wshAddress
        { m := 0, xpubs := TPUBS, change := .External, index := 0,
          network := some .signet, strictBip48 := none } =
      .error Err.invalidThreshold) ∧
    (buildBip48P2wshAddress
        { m := 2, xpubs := List.replicate 16 "k", change := .External, index := 0,
          network := some .signet, strictBip48 := none } =
      .error Err.tooManyCosigners) ∧
    (buildBip48P2wshAddress
        { m := 2, xpubs := TPUBS, change := .External, index := 0,
          network := some .signet, strictBip48 := none } ≠
        .error Err.invalidThreshold ∧
      buildBip48P2wshAddress
        { m := 2, xpubs := TPUBS, change := .External, index := 0,
          network := some .signet, strictBip48 := none } ≠
        .error Err.tooManyCosigners) :=
  ⟨(c6_threshold_count_validation
      { m := 0, xpubs := TPUBS, change := .External, index := 0,
        network := some .signet, strictBip48 := none }).1 (by decide),
    (c6_threshold_count_validation
      { m := 2, xpubs := List.replicate 16 "k", change := .External, index := 0,
        network := some .signet, strictBip48 := none }).2.1 (by decide) (by decide),
    (c6_threshold_count_validation
      { m := 2, xpubs := TPUBS, change := .External, index := 0,
        network := some .signet, strictBip48 := none }).2.2 (by decide) (by decide)
      (by decide)⟩

theorem c7_descriptor_format_witness :
    ∃ r ns, buildBip48P2wshAddress
        { m := 1, xpubs := [TPUB0], change := .External, index := 5,
          network := some .signet, strictBip48 := none } = .ok r ∧
      mapME normalizeToNeutralPub
        (({ m := 1, xpubs := [TPUB0], change := .External, index := 5,
            network := some .signet, strictBip48 := none } : MultisigRequest)).xpubs
        = .ok ns ∧
      r.descriptorTemplate = specDescriptor 1 (ns.map Prod.fst) "/0/*" ∧
      r.descriptorConcret = specDescriptor 1 (ns.map Prod.fst)
        ("/" ++ natToDec ChangeChain.External.val ++ "/" ++ natToDec 5) :=
  c7_descriptor_format
    { m := 1, xpubs := [TPUB0], change := .External, index := 5,
      network := some .signet, strictBip48 := none } buildOneKey5Ok

theorem c8_range_derivation_witness :
    ∃ rs, deriveBip48Addresses
        { m := 1, xpubs := [TPUB0], change := .External, start := 3,
          count := 1, account := none, scriptType := none, coinType := none,
          network := some .signet, strictBip48 := none } = .ok rs ∧
      rs.length = 1 ∧
      ∀ i, i < 1 →
        ∃ res, buildBip48P2wshAddress
            { m := 1, xpubs := [TPUB0], change := .External,
              index := 3 + i, network := some .signet,
              strictBip48 := none } = .ok res ∧
          rs[i]? = some
            { address := res.address, witnessScriptHex := res.witnessScriptHex,
              redeemScriptHex := res.redeemScriptHex,
              descriptorTemplate := res.descriptorTemplate,
              descriptorConcret := res.descriptorConcret,
              index := 3 + i,
              path := bip48Path ((none : Option CoinType).getD .Testnet)
                ((none : Option Nat).getD 0)
                ((none : Option ScriptType).getD .P2WSH)
                ChangeChain.External (3 + i) } :=
  c8_range_derivation
    { m := 1, xpubs := [TPUB0], change := .External, start := 3,
      count := 1, account := none, scriptType := none, coinType := none,
      network := some .signet, strictBip48 := none } deriveOneOk
